import Mathlib

/-!
Verification of the channel-handshake / packet-relay core of `cw-iper-test`.

The development shallowly embeds the data model and operations of
`src/cw-iper-test/src/{ecosystem,ibc,ibc_app,ibc_module}.rs` and the ICS20
helpers of `src/cw-iper-test/src/ibc_applications/ics20.rs`.  Rust
`Result<T, anyhow::Error>` becomes `AppResult`; `BTreeMap` becomes a sorted
association list; the `Rc<RefCell<u64>>` sequence counters shared between the
two halves of a channel become indices into a heap of cells owned by the
ecosystem; smart-contract execution and the per-application handlers (which
the design treats as external collaborators behind the `IbcApplication` /
`IbcContract` interfaces) become function parameters.
-/

set_option maxRecDepth 10000

/-- Mirror of `AppResult<T> = Result<T, anyhow::Error>`; errors carry their
message string. -/
inductive AppResult (α : Type) where
  | ok (val : α)
  | err (msg : String)
  deriving DecidableEq, Repr

/-- Model of `BTreeMap` lookup on a sorted association list. -/
def bmGet {K α : Type} [DecidableEq K] : List (K × α) → K → Option α
  | [], _ => none
  | (k', v) :: rest, k => if k = k' then some v else bmGet rest k

/-- Model of `BTreeMap::insert`: keep the list sorted by key, replacing an equal key. -/
def bmInsert {K α : Type} [LinearOrder K] (k : K) (v : α) :
    List (K × α) → List (K × α)
  | [] => [(k, v)]
  | (k', v') :: rest =>
    if k < k' then (k, v) :: (k', v') :: rest
    else if k = k' then (k, v) :: rest
    else (k', v') :: bmInsert k v rest

/-- Model of `BTreeMap::remove` of a key (keys are unique in maps built by `bmInsert`). -/
def bmRemove {K α : Type} [DecidableEq K] : List (K × α) → K → List (K × α)
  | [], _ => []
  | (k', v) :: rest, k => if k = k' then rest else (k', v) :: bmRemove rest k

/-- Model of `BTreeMap::last_key_value().map(|(k, _)| k)`: greatest key, i.e. the last
entry of the sorted association list. -/
def bmLastKey {K α : Type} : List (K × α) → Option K
  | [] => none
  | [(k, _)] => some k
  | _ :: rest => bmLastKey rest

/-- Model of `BTreeMap::first_key_value().map(|(k, _)| k)`: least key. -/
def bmFirstKey {K α : Type} : List (K × α) → Option K
  | [] => none
  | (k, _) :: _ => some k

/-- Lexicographic strict order on character lists by code point (the order
`BTreeMap<String, _>` uses, since UTF-8 byte order agrees with code-point
order); written on `Bool` so that it evaluates by kernel reduction. -/
def charListLtb : List Char → List Char → Bool
  | [], [] => false
  | [], _ :: _ => true
  | _ :: _, [] => false
  | a :: as, b :: bs =>
    if a.toNat < b.toNat then true
    else if b.toNat < a.toNat then false
    else charListLtb as bs

/-- Lexicographic strict order on strings. -/
def strLtb (a b : String) : Bool := charListLtb a.data b.data

/-- Model of `BTreeMap::insert` for string keys, ordered by `strLtb`. -/
def bmInsertS {α : Type} (k : String) (v : α) :
    List (String × α) → List (String × α)
  | [] => [(k, v)]
  | (k', v') :: rest =>
    if strLtb k k' then (k, v) :: (k', v') :: rest
    else if k = k' then (k, v) :: rest
    else (k', v') :: bmInsertS k v rest

/-- ASCII decimal digit test (Rust `u8::is_ascii_digit` on the byte). -/
def isAsciiDigit (c : Char) : Bool := '0' ≤ c && c ≤ '9'

/-- Model of `str::strip_prefix` on character lists. -/
def dropPref : List Char → List Char → Option (List Char)
  | [], l => some l
  | _ :: _, [] => none
  | p :: ps, c :: cs => if c = p then dropPref ps cs else none

/-- Digit-accumulation loop of Rust `u64::from_str`: checked multiply/add,
so any intermediate value `≥ 2^64` is an overflow error. -/
def parseDigitsU64 : Nat → List Char → Option Nat
  | acc, [] => some acc
  | acc, c :: cs =>
    if isAsciiDigit c then
      let acc' := acc * 10 + (c.toNat - '0'.toNat)
      if acc' < 18446744073709551616 then parseDigitsU64 acc' cs else none
    else none

/-- Rust `u64::from_str`: an optional leading '+', then one or more ASCII
decimal digits, value below `2^64`; everything else is an error. -/
def parseU64 (s : String) : Option Nat :=
  match s.data with
  | [] => none
  | c :: cs =>
    if c = '+' then
      match cs with
      | [] => none
      | _ :: _ => parseDigitsU64 0 cs
    else parseDigitsU64 0 (c :: cs)

/-- Model of `Channelable::as_channel_number` for `String` (`ibc.rs`): strip the
`"channel-"` prefix and parse the remainder as `u64`. -/
def as_channel_number (s : String) : AppResult Nat :=
  match dropPref "channel-".data s.data with
  | none => .err "invalid `channel-id`"
  | some rest =>
    match parseU64 (String.mk rest) with
    | none => .err "invalid `channel-id`"
    | some n => .ok n

/-- Model of `Channelable::as_channel_string` for `u64`: `format!("channel-{}", n)`. -/
def as_channel_string (n : Nat) : String := "channel-" ++ toString n

/-- Model of `cosmwasm_std::IbcOrder`. -/
inductive IbcOrder where
  | Unordered
  | Ordered
  deriving DecidableEq, Repr

/-- Model of `IbcPort` (`ibc.rs`): a channel end is owned either by a contract address
or by a named application module. -/
inductive IbcPort where
  | Contract (addr : String)
  | Module (name : String)
  deriving DecidableEq, Repr

/-- Model of `IbcPort::port_name`. -/
def IbcPort.port_name : IbcPort → String
  | .Contract addr => addr
  | .Module name => name

/-- Model of `IbcChannelStatus` (`ibc.rs`). -/
inductive IbcChannelStatus where
  | Created
  | Opening
  | Connected
  | Closed
  deriving DecidableEq, Repr

/-- Model of `IbcChannelStatus::to_next_status`: only `Created → Opening` and
`Opening → Connected`; anything else is an invalid-transition error. -/
def IbcChannelStatus.to_next_status : IbcChannelStatus → AppResult IbcChannelStatus
  | .Created => .ok .Opening
  | .Opening => .ok .Connected
  | s => .err ("invalid status for next: " ++ reprStr s)

/-- Model of `cosmwasm_std::IbcEndpoint`. -/
structure IbcEndpoint where
  port_id : String
  channel_id : String
  deriving DecidableEq, Repr

/-- Model of `IbcChannelCreator` (`ibc.rs`); `channel_id` stays `none` until the
registry assigns it. -/
structure IbcChannelCreator where
  port : IbcPort
  order : IbcOrder
  version : String
  connection_id : String
  chain_id : String
  channel_id : Option Nat
  deriving DecidableEq, Repr

/-- Model of `IbcChannelCreator::channel_id()`: resolving an unset id is an error. -/
def IbcChannelCreator.channel_id_val (c : IbcChannelCreator) : AppResult Nat :=
  match c.channel_id with
  | some id => .ok id
  | none => .err "channel-id not set"

/-- Model of `IbcChannelCreator::set_channel_id`. -/
def IbcChannelCreator.set_channel_id (c : IbcChannelCreator) (id : Nat) :
    IbcChannelCreator :=
  { c with channel_id := some id }

/-- Model of `IbcChannelCreator::as_endpoint`. -/
def IbcChannelCreator.as_endpoint (c : IbcChannelCreator) : AppResult IbcEndpoint :=
  match c.channel_id with
  | some id => .ok { port_id := c.port.port_name, channel_id := as_channel_string id }
  | none => .err "channel-id not set"

/-- Model of `cosmwasm_std::IbcChannel` as built by `IbcChannel::new_from_creators`. -/
structure IbcChannel where
  endpoint : IbcEndpoint
  counterparty_endpoint : IbcEndpoint
  order : IbcOrder
  version : String
  connection_id : String
  deriving DecidableEq, Repr

/-- Model of `IbcChannelExt::new_from_creators`: both endpoints must have ids. -/
def IbcChannel.new_from_creators (localc remotec : IbcChannelCreator) :
    AppResult IbcChannel :=
  match localc.as_endpoint with
  | .err e => .err e
  | .ok le =>
    match remotec.as_endpoint with
    | .err e => .err e
    | .ok re =>
      .ok { endpoint := le, counterparty_endpoint := re, order := localc.order,
            version := localc.version, connection_id := localc.connection_id }

/-- Model of `IbcChannelWrapper` (`ibc.rs`); the shared `Rc<RefCell<u64>>` sequence
counter is represented by the index of a cell in the ecosystem's heap. -/
structure IbcChannelWrapper where
  local_half : IbcChannelCreator
  remote_half : IbcChannelCreator
  status : IbcChannelStatus
  sequence : Nat
  deriving DecidableEq, Repr

/-- Per-chain channel registry `Channels` (`BTreeMap<u64, IbcChannelWrapper>`). -/
abbrev Channels := List (Nat × IbcChannelWrapper)

/-- Model of `Channels::get` with a `u64` key. -/
def Channels.getN (chs : Channels) (id : Nat) : AppResult IbcChannelWrapper :=
  match bmGet chs id with
  | some w => .ok w
  | none => .err "channel not found"

/-- Model of `Channels::get` with a `String` key (goes through `as_channel_number`). -/
def Channels.getS (chs : Channels) (id : String) : AppResult IbcChannelWrapper :=
  match as_channel_number id with
  | .err e => .err e
  | .ok n => Channels.getN chs n

/-- Model of `Channels::next_key`: greatest key plus one, or 0 for an empty registry. -/
def Channels.next_key (chs : Channels) : Nat :=
  match bmLastKey chs with
  | some k => k + 1
  | none => 0

/-- Model of `cosmwasm_std::IbcTimeout`, reduced to the two fields `check_timeout`
reads: the timeout block height and the timeout timestamp in nanoseconds. -/
structure IbcTimeout where
  block : Option Nat
  timestamp : Option Nat
  deriving DecidableEq, Repr

/-- The destination chain's simulated `BlockInfo`: height and time (nanos). -/
structure BlockInfo where
  height : Nat
  time : Nat
  deriving DecidableEq, Repr

/-- Model of `IbcApp::check_timeout` (`ibc_app.rs`): the packet's declared timeout
height/nanos (0 when the field is unset) against the chain's current block. -/
def check_timeout (block : BlockInfo) (timeout : IbcTimeout) : AppResult Unit :=
  let height := timeout.block.getD 0
  let nanos := timeout.timestamp.getD 0
  let invalid : Bool :=
    if height = 0 && nanos = 0 then true
    else if height = 0 then decide (block.time > nanos)
    else if nanos = 0 then decide (block.height > height)
    else !(decide (block.time > nanos) && decide (block.height > height))
  if invalid then .err "Packet has timed out" else .ok ()

/-! ### SHA-256 (`sha2` crate as used by `Ics20Helper::compute_ibc_denom_from_trace`) -/

/-- The word modulus of SHA-256, 2^32. -/
def w32 : Nat := 4294967296

/-- Addition modulo 2^32. -/
def add32 (a b : Nat) : Nat := (a + b) % w32

/-- Right rotation of a 32-bit word. -/
def rotr32 (n x : Nat) : Nat := ((x >>> n) ||| (x <<< (32 - n))) % w32

/-- Bitwise complement within 32 bits. -/
def not32 (x : Nat) : Nat := 4294967295 ^^^ x

/-- SHA-256 `Ch`. -/
def shaCh (x y z : Nat) : Nat := (x &&& y) ^^^ (not32 x &&& z)

/-- SHA-256 `Maj`. -/
def shaMaj (x y z : Nat) : Nat := (x &&& y) ^^^ (x &&& z) ^^^ (y &&& z)

/-- SHA-256 `Σ0`. -/
def shaBigS0 (x : Nat) : Nat := rotr32 2 x ^^^ rotr32 13 x ^^^ rotr32 22 x

/-- SHA-256 `Σ1`. -/
def shaBigS1 (x : Nat) : Nat := rotr32 6 x ^^^ rotr32 11 x ^^^ rotr32 25 x

/-- SHA-256 `σ0`. -/
def shaSmallS0 (x : Nat) : Nat := rotr32 7 x ^^^ rotr32 18 x ^^^ (x >>> 3)

/-- SHA-256 `σ1`. -/
def shaSmallS1 (x : Nat) : Nat := rotr32 17 x ^^^ rotr32 19 x ^^^ (x >>> 10)

/-- The SHA-256 round constants. -/
def shaK : List Nat :=
  [1116352408, 1899447441, 3049323471, 3921009573, 961987163,
   1508970993, 2453635748, 2870763221, 3624381080, 310598401,
   607225278, 1426881987, 1925078388, 2162078206, 2614888103,
   3248222580, 3835390401, 4022224774, 264347078, 604807628,
   770255983, 1249150122, 1555081692, 1996064986, 2554220882,
   2821834349, 2952996808, 3210313671, 3336571891, 3584528711,
   113926993, 338241895, 666307205, 773529912, 1294757372,
   1396182291, 1695183700, 1986661051, 2177026350, 2456956037,
   2730485921, 2820302411, 3259730800, 3345764771, 3516065817,
   3600352804, 4094571909, 275423344, 430227734, 506948616,
   659060556, 883997877, 958139571, 1322822218, 1537002063,
   1747873779, 1955562222, 2024104815, 2227730452, 2361852424,
   2428436474, 2756734187, 3204031479, 3329325298]

/-- The SHA-256 initial hash value. -/
def shaH0 : List Nat :=
  [1779033703, 3144134277, 1013904242, 2773480762, 1359893119,
   2600822924, 528734635, 1541459225]

/-- Big-endian bytes of a value, fixed width in bytes. -/
def beBytes : Nat → Nat → List Nat
  | 0, _ => []
  | n + 1, v => beBytes n (v >>> 8) ++ [v % 256]

/-- SHA-256 padding: `0x80`, zeros to 56 mod 64, then the 64-bit bit length. -/
def shaPad (msg : List Nat) : List Nat :=
  let padLen := (55 + 64 - msg.length % 64) % 64 + 1
  msg ++ (128 :: List.replicate (padLen - 1) 0) ++ beBytes 8 (msg.length * 8)

/-- Combine big-endian bytes into 32-bit words. -/
def toWords : List Nat → List Nat
  | b0 :: b1 :: b2 :: b3 :: rest =>
    (((b0 * 256 + b1) * 256 + b2) * 256 + b3) :: toWords rest
  | _ => []

/-- Message-schedule extension from 16 to 64 words. -/
def shaSchedule (ws : List Nat) : List Nat :=
  (List.range 48).foldl
    (fun w j =>
      let i := j + 16
      w ++ [add32 (add32 (shaSmallS1 (w.getD (i - 2) 0)) (w.getD (i - 7) 0))
              (add32 (shaSmallS0 (w.getD (i - 15) 0)) (w.getD (i - 16) 0))])
    ws

/-- One SHA-256 compression round. -/
def shaRound (w : List Nat) (st : List Nat) (i : Nat) : List Nat :=
  match st with
  | [a, b, c, d, e, f, g, h] =>
    let t1 := add32 (add32 (add32 h (shaBigS1 e)) (add32 (shaCh e f g) (shaK.getD i 0)))
                (w.getD i 0)
    let t2 := add32 (shaBigS0 a) (shaMaj a b c)
    [add32 t1 t2, a, b, c, add32 d t1, e, f, g]
  | other => other

/-- SHA-256 compression of one 64-byte block into the running hash. -/
def shaCompress (h : List Nat) (block : List Nat) : List Nat :=
  let w := shaSchedule (toWords block)
  let st := (List.range 64).foldl (shaRound w) h
  List.zipWith add32 h st

/-- Split the padded message into 64-byte blocks (fuel-based so that the
kernel can evaluate it; the fuel is the length, an upper bound on the number
of blocks). -/
def shaBlocksGo : Nat → List Nat → List (List Nat)
  | 0, _ => []
  | _, [] => []
  | fuel + 1, l => l.take 64 :: shaBlocksGo fuel (l.drop 64)

/-- Split the padded message into 64-byte blocks. -/
def shaBlocks (l : List Nat) : List (List Nat) := shaBlocksGo l.length l

/-- Full SHA-256: digest bytes of a byte list. -/
def sha256 (msg : List Nat) : List Nat :=
  ((shaBlocks (shaPad msg)).foldl shaCompress shaH0).flatMap (beBytes 4)

/-- UTF-8 encoding of one character. -/
def utf8Char (c : Char) : List Nat :=
  let n := c.toNat
  if n < 128 then [n]
  else if n < 2048 then [192 ||| (n >>> 6), 128 ||| (n &&& 63)]
  else if n < 65536 then
    [224 ||| (n >>> 12), 128 ||| ((n >>> 6) &&& 63), 128 ||| (n &&& 63)]
  else
    [240 ||| (n >>> 18), 128 ||| ((n >>> 12) &&& 63),
     128 ||| ((n >>> 6) &&& 63), 128 ||| (n &&& 63)]

/-- UTF-8 bytes of a string (Rust hashes the `str`'s bytes). -/
def utf8Bytes (s : String) : List Nat := s.data.flatMap utf8Char

/-- Uppercase hexadecimal digit. -/
def hexDigitU (n : Nat) : Char := "0123456789ABCDEF".data.getD n 'X'

/-- Uppercase hexadecimal string of a byte list
(`format!("{:x}", digest).to_uppercase()`). -/
def hexUpper (bytes : List Nat) : String :=
  String.mk (bytes.flatMap (fun b => [hexDigitU (b / 16), hexDigitU (b % 16)]))

/-- Model of `Ics20Helper::compute_ibc_denom_from_trace` (`ics20.rs`): `"ibc/"` followed
by the uppercase-hex SHA-256 of the trace string. -/
def compute_ibc_denom_from_trace (trace : String) : String :=
  "ibc/" ++ hexUpper (sha256 (utf8Bytes trace))

/-! ### Packet envelope model and per-chain state (`ibc_module.rs`, `ibc_app.rs`) -/

/-- Model of `Binary` payloads are opaque to the relay core; a string stands in. -/
abbrev Binary := String

/-- Model of `cw_multi_test::AppResponse` (external collaborator), reduced to its
shape: events and optional data. -/
structure AppResponse where
  events : List String := []
  data : Option Binary := none
  deriving DecidableEq, Repr

/-- Model of `MayResponse` (`ibc_app.rs`): a receive outcome that is not fatal to the
relay loop. -/
inductive MayResponse where
  | Ok (response : AppResponse)
  | Err (error : String)
  deriving DecidableEq, Repr

/-- Model of `InfallibleResult<T, E>` (`ibc_app.rs`). -/
inductive InfallibleResult (T E : Type) where
  | Ok (val : T)
  | Err (val : E)
  deriving DecidableEq, Repr

/-- Model of `cosmwasm_std::IbcPacket` as constructed in `packet_receive`. -/
structure IbcPacket where
  data : Binary
  src : IbcEndpoint
  dest : IbcEndpoint
  sequence : Nat
  timeout : IbcTimeout
  deriving DecidableEq, Repr

/-- Model of `cosmwasm_std::IbcPacketReceiveMsg`. -/
structure IbcPacketReceiveMsg where
  packet : IbcPacket
  relayer : String
  deriving DecidableEq, Repr

/-- Model of `OutgoingPacket` (`ibc_module.rs`). -/
structure OutgoingPacket where
  data : Binary
  src : IbcEndpoint
  dest : IbcEndpoint
  timeout : IbcTimeout
  deriving DecidableEq, Repr

/-- Model of `OutgoingPacketRaw` (`ibc_module.rs`): endpoints not yet resolved. -/
structure OutgoingPacketRaw where
  data : Binary
  src_port : String
  src_channel : String
  timeout : IbcTimeout
  deriving DecidableEq, Repr

/-- Model of `AckPacket` (`ibc_module.rs`). -/
structure AckPacket where
  ack : Binary
  original_packet : IbcPacketReceiveMsg
  success : Bool
  relayer : Option String
  deriving DecidableEq, Repr

/-- Model of `TimeoutPacket` (`ibc_module.rs`). -/
structure TimeoutPacket where
  original_packet : IbcPacketReceiveMsg
  relayer : Option String
  deriving DecidableEq, Repr

/-- Model of `IbcPacketType` (`ibc_module.rs`). -/
inductive IbcPacketType where
  | AckPacket (packet : AckPacket)
  | OutgoingPacket (packet : OutgoingPacket)
  | OutgoinPacketRaw (packet : OutgoingPacketRaw)
  | CloseChannel (channel_id : String)
  | Timeout (packet : TimeoutPacket)
  deriving DecidableEq, Repr

/-- Model of `AckPacket::get_src_channel`. -/
def AckPacket.get_src_channel (p : AckPacket) : String :=
  p.original_packet.packet.src.channel_id

/-- Model of `OutgoingPacket::get_dest_channel`. -/
def OutgoingPacket.get_dest_channel (p : OutgoingPacket) : String :=
  p.dest.channel_id

/-- Model of `OutgoingPacket::get_src_channel`. -/
def OutgoingPacket.get_src_channel (p : OutgoingPacket) : String :=
  p.src.channel_id

/-- Model of `IbcPacketType::get_local_channel_id`: which chain-local channel the
packet is filed under. -/
def IbcPacketType.get_local_channel_id : IbcPacketType → String
  | .AckPacket p => p.original_packet.packet.dest.channel_id
  | .OutgoingPacket p => p.src.channel_id
  | .CloseChannel channel_id => channel_id
  | .OutgoinPacketRaw p => p.src_channel
  | .Timeout p => p.original_packet.packet.dest.channel_id

/-- Model of `OutgoingPacketRaw::into_full_packet`. -/
def OutgoingPacketRaw.into_full_packet (p : OutgoingPacketRaw)
    (channel : IbcChannelWrapper) : AppResult OutgoingPacket :=
  match channel.local_half.as_endpoint with
  | .err e => .err e
  | .ok src =>
    match channel.remote_half.as_endpoint with
    | .err e => .err e
    | .ok dest => .ok { data := p.data, src := src, dest := dest, timeout := p.timeout }

/-- The pending-packet ledger stored under the `PENDING_PACKETS` item. -/
abbrev PacketMap := List (Nat × IbcPacketType)

/-- A chain's storage: the `PENDING_PACKETS` item (absent until first saved,
mirroring `Item::load` failing before any save) plus the rest of the
application state, which the relay core treats as opaque. -/
structure Storage (σ : Type) where
  pending : Option PacketMap
  app : σ
  deriving DecidableEq, Repr

/-- Model of `emit_packet` / `emit_packet_boxed` (`ibc_module.rs`): key is the current
greatest key (or 0 for an empty/absent ledger) plus one. -/
def emit_packet {σ : Type} (packet : IbcPacketType) (s : Storage σ) : Storage σ :=
  let packets := s.pending.getD []
  let new_key := (bmLastKey packets).getD 0 + 1
  { s with pending := some (bmInsert new_key packet packets) }

/-- Model of `PacketReceiveOk` (`ibc_application.rs`). -/
structure PacketReceiveOk where
  response : AppResponse
  ack : Option Binary
  deriving DecidableEq, Repr

/-- Model of `PacketReceiveFailing` (`ibc_application.rs`). -/
structure PacketReceiveFailing where
  error : String
  ack : Option Binary
  deriving DecidableEq, Repr

/-- Model of `AckResponse` (`ibc_module.rs`). -/
structure AckResponse where
  ack : Option Binary
  success : Bool
  deriving DecidableEq, Repr

/-- Model of `IbcPacketAckMsg` as built by `AckPacket::into_msg`. -/
structure IbcPacketAckMsg where
  ack : Binary
  original_packet : IbcPacket
  relayer : String
  deriving DecidableEq, Repr

/-- Model of `IbcPacketTimeoutMsg` as built in `packet_timeout`. -/
structure IbcPacketTimeoutMsg where
  packet : IbcPacket
  relayer : String
  deriving DecidableEq, Repr

/-- Model of `IbcChannelOpenMsg::new_init`. -/
inductive IbcChannelOpenMsg where
  | OpenInit (channel : IbcChannel)
  deriving DecidableEq, Repr

/-- Model of `IbcChannelConnectMsg`: the `ack` (with counterparty version) and
`confirm` variants used by `channel_connect`. -/
inductive IbcChannelConnectMsg where
  | OpenAck (channel : IbcChannel) (counterparty_version : String)
  | OpenConfirm (channel : IbcChannel)
  deriving DecidableEq, Repr

/-- Model of `transactional` (cw-multi-test): run the action on a cache and commit it
only on success; on error the base storage is kept. -/
def transactionalE {σ α : Type} (base : Storage σ)
    (action : Storage σ → Storage σ × AppResult α) :
    Storage σ × AppResult α :=
  let (cache, res) := action base
  match res with
  | .ok v => (cache, .ok v)
  | .err e => (base, .err e)

/-- Model of `infallible_transactional` (`ibc_app.rs`): like `transactional`, but the
action returns a tagged `InfallibleResult`; the cache is committed only for
the `Ok` tag. -/
def infallible_transactional {σ T E : Type} (base : Storage σ)
    (action : Storage σ → Storage σ × InfallibleResult T E) :
    Storage σ × InfallibleResult T E :=
  let (cache, res) := action base
  match res with
  | .Ok _ => (cache, res)
  | .Err _ => (base, res)

/-- The external collaborators of one chain, behind fixed interfaces: the
contract registry (`contract_data`, `code_ids`) and the protocol entry points
of contracts and application modules.  Each handler receives the chain's
storage and returns the storage it left behind together with its outcome. -/
structure Handlers (σ : Type) where
  contract_code_id : String → AppResult Nat
  has_code_id : Nat → Bool
  contract_open_channel : Nat → IbcChannelOpenMsg → Storage σ →
    Storage σ × AppResult AppResponse
  contract_channel_connect : Nat → IbcChannelConnectMsg → Storage σ →
    Storage σ × AppResult AppResponse
  contract_packet_receive : Nat → IbcPacketReceiveMsg → Storage σ →
    Storage σ × AppResult (AppResponse × Option Binary)
  contract_packet_ack : Nat → IbcPacketAckMsg → Storage σ →
    Storage σ × AppResult AppResponse
  contract_packet_timeout : Nat → IbcPacketTimeoutMsg → Storage σ →
    Storage σ × AppResult AppResponse
  module_open_channel : String → IbcChannelOpenMsg → Storage σ →
    Storage σ × AppResult AppResponse
  module_channel_connect : String → IbcChannelConnectMsg → Storage σ →
    Storage σ × AppResult AppResponse
  module_packet_receive : String → IbcPacketReceiveMsg → Storage σ →
    Storage σ × InfallibleResult PacketReceiveOk PacketReceiveFailing
  module_packet_ack : String → AckPacket → Storage σ →
    Storage σ × AppResult AppResponse
  module_packet_timeout : String → TimeoutPacket → Storage σ →
    Storage σ × AppResult AppResponse

/-- One `IbcApp`: its id, relayer address, simulated block, storage and
channel registry (the shared sequence counters live in the ecosystem). -/
structure ChainState (σ : Type) where
  chain_id : String
  relayer : String
  block : BlockInfo
  storage : Storage σ
  channels : Channels
  deriving DecidableEq, Repr

/-- Model of `IbcApp::get_pending_packet`. -/
def IbcApp.get_pending_packet {σ : Type} (st : ChainState σ) (packet_id : Nat) :
    AppResult IbcPacketType :=
  match st.storage.pending with
  | none => .err "pending_packets not found"
  | some packets =>
    match bmGet packets packet_id with
    | some p => .ok p
    | none => .err "Packet not found"

/-- Model of `IbcApp::get_pending_packets` (absent item defaults to empty). -/
def IbcApp.get_pending_packets {σ : Type} (st : ChainState σ) : PacketMap :=
  st.storage.pending.getD []

/-- Model of `IbcApp::get_next_pending_packet`: least pending key. -/
def IbcApp.get_next_pending_packet {σ : Type} (st : ChainState σ) : AppResult Nat :=
  match st.storage.pending with
  | none => .err "pending_packets not found"
  | some packets =>
    match bmFirstKey packets with
    | some k => .ok k
    | none => .err "No pending packets"

/-- Model of `IbcApp::some_pending_packets`. -/
def IbcApp.some_pending_packets {σ : Type} (st : ChainState σ) : Bool :=
  match st.storage.pending with
  | none => false
  | some packets => !packets.isEmpty

/-- Model of `IbcApp::remove_packet`: load (an absent item is an error), remove, save. -/
def IbcApp.remove_packet {σ : Type} (st : ChainState σ) (packet_id : Nat) :
    AppResult (ChainState σ) :=
  match st.storage.pending with
  | none => .err "pending_packets not found"
  | some packets =>
    .ok { st with storage := { st.storage with pending := some (bmRemove packets packet_id) } }

/-- Model of `IbcApp::get_channel_info`. -/
def IbcApp.get_channel_info {σ : Type} (st : ChainState σ)
    (local_channel_id : String) : AppResult IbcChannelWrapper :=
  Channels.getS st.channels local_channel_id

/-- Model of `IbcApp::get_next_channel_id`. -/
def IbcApp.get_next_channel_id {σ : Type} (st : ChainState σ) : Nat :=
  Channels.next_key st.channels

/-- Functorial map on `AppResult`. -/
def AppResult.map {α β : Type} (f : α → β) : AppResult α → AppResult β
  | .ok v => .ok (f v)
  | .err e => .err e

/-- The ecosystem: all chains (a `BTreeMap` keyed by chain id) plus the heap
of shared sequence cells (`Rc<RefCell<u64>>` counters). -/
structure EcoState (σ : Type) where
  apps : List (String × ChainState σ)
  cells : List Nat
  deriving DecidableEq, Repr

/-- Read a shared sequence cell. -/
def cellGet (cells : List Nat) (i : Nat) : Nat := cells.getD i 0

/-- Write a shared sequence cell. -/
def cellSet (cells : List Nat) (i v : Nat) : List Nat := cells.set i v

/-- Model of `Ecosystem::get_app`. -/
def Ecosystem.get_app {σ : Type} (eco : EcoState σ) (chain_id : String) :
    AppResult (ChainState σ) :=
  match bmGet eco.apps chain_id with
  | some app => .ok app
  | none => .err ("App not found for chain_id: " ++ chain_id)

/-- Write back one chain's state (`RefCell` interior mutation). -/
def Ecosystem.set_app {σ : Type} (eco : EcoState σ) (chain_id : String)
    (st : ChainState σ) : EcoState σ :=
  { eco with apps := bmInsertS chain_id st eco.apps }

/-- Model of `IbcApp::open_channel` (`ibc_app.rs`): build the wrapper in `Created`
status, dispatch the open event to the port owner, then record the wrapper
under the local channel id. -/
def IbcApp.open_channel {σ : Type} (H : Handlers σ) (st : ChainState σ)
    (localc remotec : IbcChannelCreator) (sequence : Nat) :
    ChainState σ × AppResult IbcChannelWrapper :=
  let channel_wrapper : IbcChannelWrapper :=
    { local_half := localc, remote_half := remotec, status := .Created,
      sequence := sequence }
  match IbcChannel.new_from_creators localc remotec with
  | .err e => (st, .err e)
  | .ok ch =>
    let msg := IbcChannelOpenMsg.OpenInit ch
    let dispatched : ChainState σ × AppResult AppResponse :=
      match localc.port with
      | .Contract contract =>
        match H.contract_code_id contract with
        | .err e => (st, .err e)
        | .ok code_id =>
          if H.has_code_id code_id then
            let (s', r) := H.contract_open_channel code_id msg st.storage
            ({ st with storage := s' }, r)
          else (st, .err "Code ID not found")
      | .Module name =>
        let (s', r) := transactionalE st.storage (H.module_open_channel name msg)
        ({ st with storage := s' }, r)
    match dispatched.2 with
    | .err e => (dispatched.1, .err e)
    | .ok _ =>
      match channel_wrapper.local_half.channel_id_val with
      | .err e => (dispatched.1, .err e)
      | .ok key =>
        ({ dispatched.1 with channels := bmInsert key channel_wrapper dispatched.1.channels },
         .ok channel_wrapper)

/-- Model of `IbcApp::channel_connect` (`ibc_app.rs`): build the `ack` message from
`Created` (with the remote's version) or the `confirm` message from
`Opening`, dispatch it, then advance the stored status. -/
def IbcApp.channel_connect {σ : Type} (H : Handlers σ) (st : ChainState σ)
    (channel_id : Nat) : ChainState σ × AppResult Unit :=
  match bmGet st.channels channel_id with
  | none => (st, .err "channel not found")
  | some channel =>
    let msgRes : AppResult IbcChannelConnectMsg :=
      match channel.status with
      | .Created =>
        match IbcChannel.new_from_creators channel.local_half channel.remote_half with
        | .err e => .err e
        | .ok ch => .ok (.OpenAck ch channel.remote_half.version)
      | .Opening =>
        match IbcChannel.new_from_creators channel.local_half channel.remote_half with
        | .err e => .err e
        | .ok ch => .ok (.OpenConfirm ch)
      | _ => .err "Invalid channel status"
    match msgRes with
    | .err e => (st, .err e)
    | .ok msg =>
      let dispatched : ChainState σ × AppResult AppResponse :=
        match channel.local_half.port with
        | .Contract contract =>
          match H.contract_code_id contract with
          | .err e => (st, .err e)
          | .ok code_id =>
            if H.has_code_id code_id then
              let (s', r) := H.contract_channel_connect code_id msg st.storage
              ({ st with storage := s' }, r)
            else (st, .err "Code ID not found")
        | .Module name =>
          let (s', r) := transactionalE st.storage (H.module_channel_connect name msg)
          ({ st with storage := s' }, r)
      match dispatched.2 with
      | .err e => (dispatched.1, .err e)
      | .ok _ =>
        match channel.status.to_next_status with
        | .err e => (dispatched.1, .err e)
        | .ok status' =>
          ({ dispatched.1 with
             channels := bmInsert channel_id { channel with status := status' }
               dispatched.1.channels }, .ok ())

/-- Model of `IbcApp::packet_receive` (`ibc_app.rs`).  The shared sequence cell is
incremented as soon as the destination channel is resolved; the receive
message carries the incremented value.  A timed-out packet queues a
`Timeout` packet and yields `MayResponse::Err`; otherwise the port owner
handles the packet — for a module port inside `infallible_transactional`,
emitting the acknowledgement (tagged with success or failure) afterwards. -/
def IbcApp.packet_receive {σ : Type} (H : Handlers σ) (eco : EcoState σ)
    (chain_id : String) (packet : OutgoingPacket) :
    EcoState σ × AppResult MayResponse :=
  match Ecosystem.get_app eco chain_id with
  | .err e => (eco, .err e)
  | .ok st =>
    match Channels.getS st.channels packet.dest.channel_id with
    | .err e => (eco, .err e)
    | .ok channel =>
      let cells := cellSet eco.cells channel.sequence
        (cellGet eco.cells channel.sequence + 1)
      let eco := { eco with cells := cells }
      match channel.remote_half.as_endpoint with
      | .err e => (eco, .err e)
      | .ok src_ep =>
        match channel.local_half.as_endpoint with
        | .err e => (eco, .err e)
        | .ok dest_ep =>
          let msg : IbcPacketReceiveMsg :=
            { packet := { data := packet.data, src := src_ep, dest := dest_ep,
                          sequence := cellGet cells channel.sequence,
                          timeout := packet.timeout },
              relayer := st.relayer }
          match check_timeout st.block packet.timeout with
          | .err e =>
            let pkt : IbcPacketType := .Timeout { original_packet := msg, relayer := none }
            let st' := { st with storage := emit_packet pkt st.storage }
            (Ecosystem.set_app eco chain_id st', .ok (.Err e))
          | .ok _ =>
            match channel.local_half.port with
            | .Contract contract =>
              match H.contract_code_id contract with
              | .err e => (eco, .err e)
              | .ok code_id =>
                if H.has_code_id code_id then
                  let (s', r) := H.contract_packet_receive code_id msg st.storage
                  match r with
                  | .err e =>
                    (Ecosystem.set_app eco chain_id { st with storage := s' }, .err e)
                  | .ok (response, ack) =>
                    let s2 :=
                      match ack with
                      | some a => emit_packet
                          (.AckPacket { ack := a, original_packet := msg,
                                        success := true, relayer := none }) s'
                      | none => s'
                    (Ecosystem.set_app eco chain_id { st with storage := s2 },
                     .ok (.Ok response))
                else (eco, .err "Code ID not found")
            | .Module name =>
              let (s2, res) := infallible_transactional st.storage
                (H.module_packet_receive name msg)
              let ack_response : AckResponse :=
                match res with
                | .Ok data => { ack := data.ack, success := true }
                | .Err data => { ack := data.ack, success := false }
              let result : MayResponse :=
                match res with
                | .Ok data => .Ok data.response
                | .Err data => .Err data.error
              let s3 :=
                match ack_response.ack with
                | some a => emit_packet
                    (.AckPacket { ack := a, original_packet := msg,
                                  success := ack_response.success,
                                  relayer := none }) s2
                | none => s2
              (Ecosystem.set_app eco chain_id { st with storage := s3 }, .ok result)

/-- Model of `IbcApp::packet_ack` (`ibc_app.rs`). -/
def IbcApp.packet_ack {σ : Type} (H : Handlers σ) (eco : EcoState σ)
    (chain_id : String) (packet : AckPacket) :
    EcoState σ × AppResult AppResponse :=
  match Ecosystem.get_app eco chain_id with
  | .err e => (eco, .err e)
  | .ok st =>
    match Channels.getS st.channels packet.get_src_channel with
    | .err e => (eco, .err e)
    | .ok channel =>
      match channel.local_half.port with
      | .Contract contract =>
        match H.contract_code_id contract with
        | .err e => (eco, .err e)
        | .ok code_id =>
          if H.has_code_id code_id then
            let msg : IbcPacketAckMsg :=
              { ack := packet.ack, original_packet := packet.original_packet.packet,
                relayer := st.relayer }
            let (s', r) := H.contract_packet_ack code_id msg st.storage
            (Ecosystem.set_app eco chain_id { st with storage := s' }, r)
          else (eco, .err "Code ID not found")
      | .Module name =>
        let packet' := { packet with relayer := some st.relayer }
        let (s', r) := transactionalE st.storage (H.module_packet_ack name packet')
        (Ecosystem.set_app eco chain_id { st with storage := s' }, r)

/-- Model of `IbcApp::packet_timeout` (`ibc_app.rs`). -/
def IbcApp.packet_timeout {σ : Type} (H : Handlers σ) (eco : EcoState σ)
    (chain_id : String) (packet : TimeoutPacket) :
    EcoState σ × AppResult AppResponse :=
  match Ecosystem.get_app eco chain_id with
  | .err e => (eco, .err e)
  | .ok st =>
    match Channels.getS st.channels packet.original_packet.packet.src.channel_id with
    | .err e => (eco, .err e)
    | .ok channel =>
      match channel.local_half.port with
      | .Contract contract =>
        match H.contract_code_id contract with
        | .err e => (eco, .err e)
        | .ok code_id =>
          if H.has_code_id code_id then
            match channel.local_half.as_endpoint with
            | .err e => (eco, .err e)
            | .ok src_ep =>
              match channel.remote_half.as_endpoint with
              | .err e => (eco, .err e)
              | .ok dest_ep =>
                let msg : IbcPacketTimeoutMsg :=
                  { packet := { data := packet.original_packet.packet.data,
                                src := src_ep, dest := dest_ep,
                                sequence := cellGet eco.cells channel.sequence,
                                timeout := packet.original_packet.packet.timeout },
                    relayer := st.relayer }
                let (s', r) := H.contract_packet_timeout code_id msg st.storage
                (Ecosystem.set_app eco chain_id { st with storage := s' }, r)
          else (eco, .err "Code ID not found")
      | .Module name =>
        let (s', r) := transactionalE st.storage (H.module_packet_timeout name packet)
        (Ecosystem.set_app eco chain_id { st with storage := s' }, r)

/-- Model of `IbcApp::incoming_packet` (`ibc_app.rs`): dispatch on the packet variant;
`CloseChannel` delivery is `unimplemented!` upstream (modelled as an error). -/
def IbcApp.incoming_packet {σ : Type} (H : Handlers σ) (eco : EcoState σ)
    (chain_id : String) (packet : IbcPacketType) :
    EcoState σ × AppResult MayResponse :=
  match packet with
  | .AckPacket p =>
    let (eco1, r) := IbcApp.packet_ack H eco chain_id p
    (eco1, r.map .Ok)
  | .OutgoingPacket p => IbcApp.packet_receive H eco chain_id p
  | .OutgoinPacketRaw p =>
    match Ecosystem.get_app eco chain_id with
    | .err e => (eco, .err e)
    | .ok st =>
      match Channels.getS st.channels p.src_channel with
      | .err e => (eco, .err e)
      | .ok channel =>
        match p.into_full_packet channel with
        | .err e => (eco, .err e)
        | .ok full => IbcApp.packet_receive H eco chain_id full
  | .Timeout p =>
    let (eco1, r) := IbcApp.packet_timeout H eco chain_id p
    (eco1, r.map .Ok)
  | .CloseChannel _ => (eco, .err "Close channel is unimplemented")

/-- Model of `Ecosystem::relay_packet` (`ecosystem.rs`): load the packet from the
source ledger, resolve the destination chain through the source channel's
remote half, hand the packet to the destination's `incoming_packet`, and only
then remove the packet from the source ledger, propagating a removal failure
as an error. -/
def Ecosystem.relay_packet {σ : Type} (H : String → Handlers σ)
    (eco : EcoState σ) (chain_id : String) (packet_id : Nat) :
    EcoState σ × AppResult MayResponse :=
  match Ecosystem.get_app eco chain_id with
  | .err e => (eco, .err e)
  | .ok app_src =>
    match IbcApp.get_pending_packet app_src packet_id with
    | .err e => (eco, .err e)
    | .ok packet =>
      match IbcApp.get_channel_info app_src packet.get_local_channel_id with
      | .err e => (eco, .err e)
      | .ok channel_info =>
        match Ecosystem.get_app eco channel_info.remote_half.chain_id with
        | .err e => (eco, .err e)
        | .ok _app_dest =>
          let dest := channel_info.remote_half.chain_id
          let (eco1, res) := IbcApp.incoming_packet (H dest) eco dest packet
          match res with
          | .err e => (eco1, .err e)
          | .ok response =>
            match Ecosystem.get_app eco1 chain_id with
            | .err e => (eco1, .err e)
            | .ok app_src1 =>
              match IbcApp.remove_packet app_src1 packet_id with
              | .err e => (eco1, .err e)
              | .ok app_src2 =>
                (Ecosystem.set_app eco1 chain_id app_src2, .ok response)

/-- Model of `Ecosystem::relay_next_packet`: relay the lowest pending sequence number
of the given chain. -/
def Ecosystem.relay_next_packet {σ : Type} (H : String → Handlers σ)
    (eco : EcoState σ) (chain_id : String) : EcoState σ × AppResult MayResponse :=
  match Ecosystem.get_app eco chain_id with
  | .err e => (eco, .err e)
  | .ok app =>
    match IbcApp.get_next_pending_packet app with
    | .err e => (eco, .err e)
    | .ok packet_id => Ecosystem.relay_packet H eco chain_id packet_id

/-- The scan of `relay_all_packets`: the first chain (in key order) with a
non-empty pending ledger. -/
def Ecosystem.findPendingChain {σ : Type} (eco : EcoState σ) : Option String :=
  (eco.apps.find? (fun a => IbcApp.some_pending_packets a.2)).map (fun a => a.1)

/-- The `while !finished` loop of `Ecosystem::relay_all_packets`, with fuel
bounding the number of relayed packets (the Rust loop has no such bound and
may diverge if relays keep emitting new packets). -/
def Ecosystem.relay_all_go {σ : Type} (H : String → Handlers σ) :
    Nat → EcoState σ → List MayResponse → EcoState σ × AppResult (List MayResponse)
  | fuel, eco, acc =>
    match Ecosystem.findPendingChain eco with
    | none => (eco, .ok acc.reverse)
    | some chain_id =>
      match fuel with
      | 0 => (eco, .err "relay fuel exhausted")
      | fuel' + 1 =>
        let (eco1, r) := Ecosystem.relay_next_packet H eco chain_id
        match r with
        | .err e => (eco1, .err e)
        | .ok resp => Ecosystem.relay_all_go H fuel' eco1 (resp :: acc)

/-- Model of `Ecosystem::relay_all_packets`. -/
def Ecosystem.relay_all_packets {σ : Type} (H : String → Handlers σ)
    (fuel : Nat) (eco : EcoState σ) : EcoState σ × AppResult (List MayResponse) :=
  Ecosystem.relay_all_go H fuel eco []

/-- One `app.borrow_mut().open_channel(..)` call inside
`Ecosystem::open_ibc_channel`. -/
def Ecosystem.open_step {σ : Type} (H : String → Handlers σ) (eco : EcoState σ)
    (chain_id : String) (localc remotec : IbcChannelCreator) (sequence : Nat) :
    EcoState σ × AppResult IbcChannelWrapper :=
  match Ecosystem.get_app eco chain_id with
  | .err e => (eco, .err e)
  | .ok app =>
    let (app', r) := IbcApp.open_channel (H chain_id) app localc remotec sequence
    (Ecosystem.set_app eco chain_id app', r)

/-- One `app.borrow_mut().channel_connect(..)` call inside
`Ecosystem::open_ibc_channel`. -/
def Ecosystem.connect_step {σ : Type} (H : String → Handlers σ) (eco : EcoState σ)
    (chain_id : String) (channel_id : Nat) : EcoState σ × AppResult Unit :=
  match Ecosystem.get_app eco chain_id with
  | .err e => (eco, .err e)
  | .ok app =>
    let (app', r) := IbcApp.channel_connect (H chain_id) app channel_id
    (Ecosystem.set_app eco chain_id app', r)

/-- Model of `Ecosystem::open_ibc_channel` (`ecosystem.rs`): assign the next channel
id on each side, allocate the shared sequence cell at 0, open both sides,
then run `channel_connect` twice per side in the order 1, 2, 1, 2. -/
def Ecosystem.open_ibc_channel {σ : Type} (H : String → Handlers σ)
    (eco : EcoState σ) (channel_1 channel_2 : IbcChannelCreator) :
    EcoState σ × AppResult Unit :=
  match Ecosystem.get_app eco channel_1.chain_id with
  | .err e => (eco, .err e)
  | .ok app_1 =>
    match Ecosystem.get_app eco channel_2.chain_id with
    | .err e => (eco, .err e)
    | .ok app_2 =>
      let channel_id_1 := IbcApp.get_next_channel_id app_1
      let channel_id_2 := IbcApp.get_next_channel_id app_2
      let c1 := channel_1.set_channel_id channel_id_1
      let c2 := channel_2.set_channel_id channel_id_2
      let sequence := eco.cells.length
      let eco0 := { eco with cells := eco.cells ++ [0] }
      let (e1, r1) := Ecosystem.open_step H eco0 c1.chain_id c1 c2 sequence
      match r1 with
      | .err e => (e1, .err e)
      | .ok _ =>
        let (e2, r2) := Ecosystem.open_step H e1 c2.chain_id c2 c1 sequence
        match r2 with
        | .err e => (e2, .err e)
        | .ok _ =>
          let (e3, r3) := Ecosystem.connect_step H e2 c1.chain_id channel_id_1
          match r3 with
          | .err e => (e3, .err e)
          | .ok _ =>
            let (e4, r4) := Ecosystem.connect_step H e3 c2.chain_id channel_id_2
            match r4 with
            | .err e => (e4, .err e)
            | .ok _ =>
              let (e5, r5) := Ecosystem.connect_step H e4 c1.chain_id channel_id_1
              match r5 with
              | .err e => (e5, .err e)
              | .ok _ =>
                let (e6, r6) := Ecosystem.connect_step H e5 c2.chain_id channel_id_2
                match r6 with
                | .err e => (e6, .err e)
                | .ok _ => (e6, .ok ())

/-- Model of `Rust str::starts_with` for a literal prefix. -/
def startsWithPref (s p : String) : Bool := (dropPref p.data s.data).isSome

/-- Model of `Ics20Db` (`ics20.rs`): the denomination-trace table and the escrow
("container") address. -/
structure Ics20Db where
  incoming_denoms : List (String × String)
  address_container : String
  deriving DecidableEq, Repr

/-- Model of `Ics20Db::handle_outgoing` (`ics20.rs`): an `"ibc/"`-prefixed
denomination must already be in the trace table — the lookup result is
`unwrap`ped, so a missing entry panics (modelled as `none`); any other
denomination is treated as local (escrow), returned unchanged. -/
def Ics20Db.handle_outgoing (db : Ics20Db) (denom : String) :
    Option (String × Bool) :=
  if startsWithPref denom "ibc/" then
    match bmGet db.incoming_denoms denom with
    | some trace => some (trace, false)
    | none => none
  else some (denom, true)

/-! ### Specification-side definitions and concrete fixtures -/

/-- Decimal value of a digit string, most significant digit first; this is
the specification-side reading of a digit list, compared against the
embedded parser in the channel-id characterization. -/
def foldDigits (acc : Nat) (l : List Char) : Nat :=
  l.foldl (fun a c => a * 10 + (c.toNat - '0'.toNat)) acc

/-- Sortedness of an association list by strictly increasing keys — the
representation invariant of the `BTreeMap` model. -/
def bmSorted {K α : Type} [LT K] (l : List (K × α)) : Prop :=
  List.Chain' (fun a b => a.1 < b.1) l

/-- Fixture: channel-creator half living on chain A. -/
def creatorA : IbcChannelCreator :=
  { port := .Module "transfer", order := .Unordered, version := "ics20-1",
    connection_id := "connection-0", chain_id := "chainA", channel_id := some 0 }

/-- Fixture: channel-creator half living on chain B. -/
def creatorB : IbcChannelCreator :=
  { port := .Module "transfer", order := .Unordered, version := "ics20-1",
    connection_id := "connection-0", chain_id := "chainB", channel_id := some 0 }

/-- Fixture: chain A's half of the connected channel (cell 0). -/
def wrapA : IbcChannelWrapper :=
  { local_half := creatorA, remote_half := creatorB, status := .Connected,
    sequence := 0 }

/-- Fixture: chain B's half of the connected channel (cell 0). -/
def wrapB : IbcChannelWrapper :=
  { local_half := creatorB, remote_half := creatorA, status := .Connected,
    sequence := 0 }

/-- Fixture: a pending transfer packet from chain A over channel 0, timing
out at height 100. -/
def pktAB : OutgoingPacket :=
  { data := "d", src := { port_id := "transfer", channel_id := "channel-0" },
    dest := { port_id := "transfer", channel_id := "channel-0" },
    timeout := { block := some 100, timestamp := none } }

/-- Fixture handlers: module receive succeeds with acknowledgement `"ACK"`
and writes 7 into the application state; module ack writes 99 (so an
invocation of the ack path is observable); contract ports are unused. -/
def okHandlers : Handlers Nat :=
  { contract_code_id := fun _ => .err "unused"
    has_code_id := fun _ => false
    contract_open_channel := fun _ _ s => (s, .err "unused")
    contract_channel_connect := fun _ _ s => (s, .err "unused")
    contract_packet_receive := fun _ _ s => (s, .err "unused")
    contract_packet_ack := fun _ _ s => (s, .err "unused")
    contract_packet_timeout := fun _ _ s => (s, .err "unused")
    module_open_channel := fun _ _ s => (s, .ok {})
    module_channel_connect := fun _ _ s => (s, .ok {})
    module_packet_receive := fun _ _ s =>
      ({ s with app := 7 }, .Ok { response := {}, ack := some "ACK" })
    module_packet_ack := fun _ _ s => ({ s with app := 99 }, .ok {})
    module_packet_timeout := fun _ _ s => (s, .ok {}) }

/-- Fixture handlers whose module receive mutates the application state to 55
and then fails with acknowledgement `"NACK"`. -/
def failHandlers : Handlers Nat :=
  { okHandlers with
    module_packet_receive := fun _ _ s =>
      ({ s with app := 55 }, .Err { error := "boom", ack := some "NACK" }) }

/-- Fixture: chain A holding the pending packet under ledger key 1. -/
def chainA : ChainState Nat :=
  { chain_id := "chainA", relayer := "relA", block := { height := 1, time := 1 },
    storage := { pending := some [(1, .OutgoingPacket pktAB)], app := 0 },
    channels := [(0, wrapA)] }

/-- Fixture: chain B with an empty ledger. -/
def chainB : ChainState Nat :=
  { chain_id := "chainB", relayer := "relB", block := { height := 1, time := 1 },
    storage := { pending := none, app := 0 }, channels := [(0, wrapB)] }

/-- Fixture: the two-chain ecosystem with one shared sequence cell at 0. -/
def ecoAB : EcoState Nat :=
  { apps := [("chainA", chainA), ("chainB", chainB)], cells := [0] }

/-- Fixture: chain B at height 200, past the packet's height-100 timeout. -/
def chainBLate : ChainState Nat :=
  { chainB with block := { height := 200, time := 1 } }

/-- Fixture: ecosystem in which the packet from A is already timed out at B. -/
def ecoLate : EcoState Nat :=
  { apps := [("chainA", chainA), ("chainB", chainBLate)], cells := [0] }

/-- Fixture: chain A before any channel exists. -/
def freshA : ChainState Nat :=
  { chain_id := "chainA", relayer := "relA", block := { height := 1, time := 1 },
    storage := { pending := none, app := 0 }, channels := [] }

/-- Fixture: chain B before any channel exists. -/
def freshB : ChainState Nat :=
  { chain_id := "chainB", relayer := "relB", block := { height := 1, time := 1 },
    storage := { pending := none, app := 0 }, channels := [] }

/-- Fixture: two fresh chains, no sequence cells yet. -/
def ecoFresh : EcoState Nat :=
  { apps := [("chainA", freshA), ("chainB", freshB)], cells := [] }

/-- Fixture: pre-handshake creator for chain A (no channel id yet). -/
def credA : IbcChannelCreator :=
  { port := .Module "transfer", order := .Unordered, version := "ics20-1",
    connection_id := "connection-0", chain_id := "chainA", channel_id := none }

/-- Fixture: pre-handshake creator for chain B (no channel id yet). -/
def credB : IbcChannelCreator :=
  { port := .Module "transfer", order := .Unordered, version := "ics20-1",
    connection_id := "connection-0", chain_id := "chainB", channel_id := none }

/-- Acknowledgement emission step of the module receive path: append an
`AckPacket` with the given success flag when the handler produced an
acknowledgement payload, else leave the storage alone. -/
def ackEmitOn {σ : Type} (success : Bool) (msg : IbcPacketReceiveMsg)
    (ack : Option Binary) (s : Storage σ) : Storage σ :=
  match ack with
  | some a => emit_packet
      (.AckPacket { ack := a, original_packet := msg, success := success,
                    relayer := none }) s
  | none => s

/-- Fixture: the acknowledgement packet chain B queues after receiving
`pktAB` with `okHandlers`. -/
def ackAB : AckPacket :=
  { ack := "ACK",
    original_packet :=
      { packet := { data := "d",
                    src := { port_id := "transfer", channel_id := "channel-0" },
                    dest := { port_id := "transfer", channel_id := "channel-0" },
                    sequence := 1,
                    timeout := { block := some 100, timestamp := none } },
        relayer := "relB" },
    success := true, relayer := none }

/-- The channel wrapper a chain of the ecosystem holds under a given local
channel id, when both the chain and the entry exist. -/
def chanAt {σ : Type} (eco : EcoState σ) (chain_id : String) (channel_id : Nat) :
    Option IbcChannelWrapper :=
  match Ecosystem.get_app eco chain_id with
  | .ok app => bmGet app.channels channel_id
  | .err _ => none

/-- Fixture: the endpoint both fixture channel halves resolve to. -/
def epT : IbcEndpoint := { port_id := "transfer", channel_id := "channel-0" }

/-- Fixture: the ecosystem after chain B has received `pktAB` (ack queued on
chain B, B's application state at 7, the shared cell at 1) but before the
source ledger entry is removed. -/
def ecoAB_afterReceive : EcoState Nat :=
  { apps := [("chainA", chainA),
             ("chainB", { chainB with storage := { pending := some [(1, .AckPacket ackAB)], app := 7 } })],
    cells := [1] }

/-! ### Helper lemmas about the ordered-map model and the ecosystem state -/

theorem bmGet_bmInsert_self {K α : Type} [LinearOrder K] [DecidableEq K]
    (k : K) (v : α)
    (l : List (K × α)) : bmGet (bmInsert k v l) k = some v := by
  induction l with
  | nil => simp [bmInsert, bmGet]
  | cons hd tl ih =>
    by_cases hlt : k < hd.1
    · simp [bmInsert, hlt, bmGet]
    · by_cases heq : k = hd.1
      · simp [bmInsert, hlt, heq, bmGet]
      · simp [bmInsert, hlt, heq, bmGet, ih]

theorem bmGet_bmInsert_ne {K α : Type} [LinearOrder K] [DecidableEq K]
    (k k' : K) (v : α)
    (l : List (K × α)) (h : k' ≠ k) :
    bmGet (bmInsert k v l) k' = bmGet l k' := by
  induction l with
  | nil => simp [bmInsert, bmGet, h]
  | cons hd tl ih =>
    by_cases hlt : k < hd.1
    · simp [bmInsert, hlt, bmGet, h]
    · by_cases heq : k = hd.1
      · subst heq
        simp [bmInsert, hlt, bmGet, h]
      · by_cases h2 : k' = hd.1 <;> simp [bmInsert, hlt, heq, bmGet, h2, ih]

theorem bmGet_bmInsertS_self {α : Type} (k : String) (v : α)
    (l : List (String × α)) : bmGet (bmInsertS k v l) k = some v := by
  induction l with
  | nil => simp [bmInsertS, bmGet]
  | cons hd tl ih =>
    by_cases hlt : strLtb k hd.1
    · simp [bmInsertS, hlt, bmGet]
    · by_cases heq : k = hd.1
      · subst heq
        simp [bmInsertS, hlt, bmGet]
      · simp [bmInsertS, hlt, heq, bmGet, ih]

theorem bmGet_bmInsertS_ne {α : Type} (k k' : String) (v : α)
    (l : List (String × α)) (h : k' ≠ k) :
    bmGet (bmInsertS k v l) k' = bmGet l k' := by
  induction l with
  | nil => simp [bmInsertS, bmGet, h]
  | cons hd tl ih =>
    by_cases hlt : strLtb k hd.1
    · simp [bmInsertS, hlt, bmGet, h]
    · by_cases heq : k = hd.1
      · subst heq
        simp [bmInsertS, hlt, bmGet, h]
      · by_cases h2 : k' = hd.1 <;> simp [bmInsertS, hlt, heq, bmGet, h2, ih]

theorem Ecosystem.get_app_set_app_self {σ : Type} (eco : EcoState σ)
    (chain_id : String) (st : ChainState σ) :
    Ecosystem.get_app (Ecosystem.set_app eco chain_id st) chain_id = .ok st := by
  simp [Ecosystem.get_app, Ecosystem.set_app, bmGet_bmInsertS_self]

theorem Ecosystem.get_app_set_app_ne {σ : Type} (eco : EcoState σ)
    (chain_id other : String) (st : ChainState σ) (h : other ≠ chain_id) :
    Ecosystem.get_app (Ecosystem.set_app eco chain_id st) other =
      Ecosystem.get_app eco other := by
  simp [Ecosystem.get_app, Ecosystem.set_app, bmGet_bmInsertS_ne _ _ _ _ h]

theorem Ecosystem.get_app_cells {σ : Type} (eco : EcoState σ) (cells : List Nat)
    (chain_id : String) :
    Ecosystem.get_app { eco with cells := cells } chain_id =
      Ecosystem.get_app eco chain_id := rfl

theorem Ecosystem.set_app_cells {σ : Type} (eco : EcoState σ)
    (chain_id : String) (st : ChainState σ) :
    (Ecosystem.set_app eco chain_id st).cells = eco.cells := rfl

/-! ### Claim theorems -/

/-- C8: denomination derivation is pure and deterministic — the derived
denomination is `"ibc/"` followed by the uppercase-hex SHA-256 of the trace
string, and `derive("transfer/channel-6/uusdc")` equals the literal
`ibc/B3504E092456BA618CC28AC671A71FB08C6CA0FD0BE7C8A5B5A3E2DD933CC9E4`. -/
theorem C8_denom_derivation :
    compute_ibc_denom_from_trace "transfer/channel-6/uusdc" =
      "ibc/B3504E092456BA618CC28AC671A71FB08C6CA0FD0BE7C8A5B5A3E2DD933CC9E4" ∧
    ∀ trace : String, compute_ibc_denom_from_trace trace =
      "ibc/" ++ hexUpper (sha256 (utf8Bytes trace)) :=
  ⟨by decide, fun _ => rfl⟩

/-- C3 (failing input): `check_timeout` judges a packet with both timeout
fields set and neither elapsed (block 5/5 against timeout height 100 and
nanos 1000) as timed out, and conversely accepts a packet whose height and
timestamp have both elapsed (block 200/2000) — the inverse of comparing the
declared timeout against the simulated block. -/
theorem C3_check_timeout_inverted_on_both_fields :
    check_timeout { height := 5, time := 5 }
        { block := some 100, timestamp := some 1000 } =
      .err "Packet has timed out" ∧
    (5 < 100 ∧ 5 < 1000) ∧
    check_timeout { height := 200, time := 2000 }
        { block := some 100, timestamp := some 1000 } = .ok () ∧
    (100 < 200 ∧ 1000 < 2000) := by
  decide

/-- C10: `Ics20Db::handle_outgoing` panics (modelled as `none`) exactly on a
denomination that starts with `"ibc/"` but has no entry in the
`incoming_denoms` trace table; every other denomination is handled totally. -/
theorem C10_handle_outgoing_none_iff_untracked_ibc_denom (db : Ics20Db)
    (denom : String) :
    Ics20Db.handle_outgoing db denom = none ↔
      (startsWithPref denom "ibc/" = true ∧
       bmGet db.incoming_denoms denom = none) := by
  unfold Ics20Db.handle_outgoing
  by_cases hpre : startsWithPref denom "ibc/"
  · cases hbm : bmGet db.incoming_denoms denom <;> simp [hpre, hbm]
  · simp [hpre]

/-- C9 (counterexample): channel-id parsing is not restricted to the
canonical decimal form — `"channel-007"` and `"channel-+7"` both parse
successfully to 7 although neither equals `"channel-" ++ "7"`. -/
theorem C9_parse_accepts_noncanonical_channel_id :
    as_channel_number "channel-007" = .ok 7 ∧
    "channel-007" ≠ "channel-" ++ toString 7 ∧
    as_channel_number "channel-+7" = .ok 7 ∧
    "channel-+7" ≠ "channel-" ++ toString 7 := by
  decide

/-- C2 (counterexample): a receive that is judged timed out does increment
the shared sequence counter — chain B at height 200 rejects the packet with
height-100 timeout as timed out, yet the shared cell goes from 0 to 1. -/
theorem C2_timed_out_receive_still_increments_sequence :
    cellGet ecoLate.cells wrapB.sequence = 0 ∧
    (IbcApp.packet_receive okHandlers ecoLate "chainB" pktAB).2 =
      .ok (.Err "Packet has timed out") ∧
    cellGet (IbcApp.packet_receive okHandlers ecoLate "chainB" pktAB).1.cells
      wrapB.sequence = 1 := by
  decide

/-- C6 (counterexample): ledger keys are reused after removal — emitting into
an empty ledger assigns key 1, removing that packet and emitting again
assigns key 1 a second time, to a different packet. -/
theorem C6_ledger_key_reused_after_removal :
    (emit_packet (.CloseChannel "p") freshA.storage).pending =
      some [(1, .CloseChannel "p")] ∧
    IbcApp.remove_packet
      { freshA with storage := emit_packet (.CloseChannel "p") freshA.storage } 1 =
      .ok { freshA with storage := { pending := some [], app := 0 } } ∧
    (emit_packet (.CloseChannel "q")
      ({ pending := some [], app := 0 } : Storage Nat)).pending =
      some [(1, .CloseChannel "q")] := by
  decide

/-- C1 (counterexample): a successful `relay_packet` whose receive yields an
acknowledgement does not invoke the source chain's ack path — chain A's
application state stays 0 (the ack handler would set 99) and the
acknowledgement is only queued on chain B's ledger; the ack path runs on
chain A only when the queued packet is itself relayed later
(`relay_all_packets` leaves A at 99). -/
theorem C1_relay_packet_does_not_invoke_source_ack_path :
    (Ecosystem.relay_packet (fun _ => okHandlers) ecoAB "chainA" 1).2 =
      .ok (.Ok { events := [], data := none }) ∧
    Ecosystem.get_app (Ecosystem.relay_packet (fun _ => okHandlers) ecoAB "chainA" 1).1
        "chainA" =
      .ok { chainA with storage := { pending := some [], app := 0 } } ∧
    Ecosystem.get_app (Ecosystem.relay_packet (fun _ => okHandlers) ecoAB "chainA" 1).1
        "chainB" =
      .ok { chainB with
            storage := { pending := some [(1, .AckPacket ackAB)], app := 7 } } ∧
    Ecosystem.get_app
        (Ecosystem.relay_all_packets (fun _ => okHandlers) 10 ecoAB).1 "chainA" =
      .ok { chainA with storage := { pending := some [], app := 99 } } := by
  decide

/-- C7: `relay_all_packets` on a drained ecosystem — if no chain has pending
packets, it returns an empty result and leaves the ecosystem unchanged, for
any amount of fuel. -/
theorem C7_relay_all_packets_drained_noop {σ : Type} (H : String → Handlers σ)
    (fuel : Nat) (eco : EcoState σ)
    (h : ∀ p ∈ eco.apps, IbcApp.some_pending_packets p.2 = false) :
    Ecosystem.relay_all_packets H fuel eco = (eco, .ok []) := by
  have hfind : Ecosystem.findPendingChain eco = none := by
    unfold Ecosystem.findPendingChain
    rw [List.find?_eq_none.mpr]
    · rfl
    · intro x hx
      simp [h x hx]
  unfold Ecosystem.relay_all_packets Ecosystem.relay_all_go
  rw [hfind]
  rfl

/-- C7 witness: the drained two-chain fixture is returned unchanged with an
empty response list. -/
theorem C7_witness :
    (∀ p ∈ ecoFresh.apps, IbcApp.some_pending_packets p.2 = false) ∧
    Ecosystem.relay_all_packets (fun _ => okHandlers) 5 ecoFresh =
      (ecoFresh, .ok []) :=
  ⟨by decide, C7_relay_all_packets_drained_noop (fun _ => okHandlers) 5 ecoFresh (by decide)⟩

/-- C2 (amended): the shared sequence counter of the resolved destination
channel is incremented exactly once per receive attempt — whatever the
subsequent outcome (timed out, handler failure, handler success, or a hard
error), the ecosystem's cells after `packet_receive` are exactly the old
cells with that one counter bumped by one. -/
theorem C2_sequence_incremented_once_per_attempt {σ : Type} (H : Handlers σ)
    (eco : EcoState σ) (chain_id : String) (packet : OutgoingPacket)
    (st : ChainState σ) (w : IbcChannelWrapper)
    (h1 : Ecosystem.get_app eco chain_id = .ok st)
    (h2 : Channels.getS st.channels packet.dest.channel_id = .ok w) :
    (IbcApp.packet_receive H eco chain_id packet).1.cells =
      cellSet eco.cells w.sequence (cellGet eco.cells w.sequence + 1) := by
  unfold IbcApp.packet_receive
  rw [h1]
  dsimp only
  rw [h2]
  dsimp only
  repeat' split
  all_goals rfl

/-- C2 witness: the fixture receive on chain B bumps cell 0 from 0 to 1. -/
theorem C2_sequence_witness :
    Ecosystem.get_app ecoAB "chainB" = .ok chainB ∧
    Channels.getS chainB.channels pktAB.dest.channel_id = .ok wrapB ∧
    (IbcApp.packet_receive okHandlers ecoAB "chainB" pktAB).1.cells =
      cellSet ecoAB.cells wrapB.sequence (cellGet ecoAB.cells wrapB.sequence + 1) :=
  ⟨by decide, by decide,
   C2_sequence_incremented_once_per_attempt okHandlers ecoAB "chainB" pktAB
     chainB wrapB (by decide) (by decide)⟩

/-- C4: on the module receive path the handler's state mutations are
committed iff the handler succeeds.  With the destination channel resolved to
a module port and the timeout check passed: if the handler fails, its storage
`s'` is discarded (the chain keeps `st.storage`), the dispatcher still
returns without error — a tagged `MayResponse.Err` — and the handler's
acknowledgement payload is still emitted with `success := false`; if the
handler succeeds, its storage `s'` is committed and the acknowledgement is
emitted with `success := true`. -/
theorem C4_module_receive_transactional {σ : Type} (H : Handlers σ)
    (eco : EcoState σ) (chain_id name : String) (packet : OutgoingPacket)
    (st : ChainState σ) (w : IbcChannelWrapper) (se de : IbcEndpoint)
    (h1 : Ecosystem.get_app eco chain_id = .ok st)
    (h2 : Channels.getS st.channels packet.dest.channel_id = .ok w)
    (hr : w.remote_half.as_endpoint = .ok se)
    (hl : w.local_half.as_endpoint = .ok de)
    (ht : check_timeout st.block packet.timeout = .ok ())
    (hp : w.local_half.port = .Module name) :
    let cells := cellSet eco.cells w.sequence (cellGet eco.cells w.sequence + 1)
    let msg : IbcPacketReceiveMsg :=
      { packet := { data := packet.data, src := se, dest := de,
                    sequence := cellGet cells w.sequence,
                    timeout := packet.timeout },
        relayer := st.relayer }
    ∀ s' res, H.module_packet_receive name msg st.storage = (s', res) →
      (∀ d, res = .Err d →
        IbcApp.packet_receive H eco chain_id packet =
          (Ecosystem.set_app { eco with cells := cells } chain_id
             { st with storage := ackEmitOn false msg d.ack st.storage },
           .ok (.Err d.error))) ∧
      (∀ d, res = .Ok d →
        IbcApp.packet_receive H eco chain_id packet =
          (Ecosystem.set_app { eco with cells := cells } chain_id
             { st with storage := ackEmitOn true msg d.ack s' },
           .ok (.Ok d.response))) := by
  dsimp only
  intro s' res hrun
  unfold IbcApp.packet_receive
  rw [h1]
  dsimp only
  rw [h2]
  dsimp only
  rw [hr]
  dsimp only
  rw [hl]
  dsimp only
  rw [ht]
  dsimp only
  rw [hp]
  dsimp only
  unfold infallible_transactional
  rw [hrun]
  constructor
  · intro d hd
    subst hd
    dsimp only
    cases hack : d.ack <;> simp [ackEmitOn, hack]
  · intro d hd
    subst hd
    dsimp only
    cases hack : d.ack <;> simp [ackEmitOn, hack]

/-- C4 witness: the fixture receive on chain B with the failing handler —
the handler's write of 55 is rolled back, the call returns the tagged
`MayResponse.Err "boom"`, and the `"NACK"` acknowledgement is emitted with
`success := false`. -/
theorem C4_transactional_witness :
    IbcApp.packet_receive failHandlers ecoAB "chainB" pktAB =
      (Ecosystem.set_app { ecoAB with cells := [1] } "chainB"
         { chainB with storage := ackEmitOn false ackAB.original_packet (some "NACK") chainB.storage },
       .ok (.Err "boom")) := by
  exact ((C4_module_receive_transactional failHandlers ecoAB "chainB" "transfer"
      pktAB chainB wrapB epT epT (by decide) (by decide) (by decide) (by decide)
      (by decide) (by decide))
      { pending := none, app := 55 }
      (.Err { error := "boom", ack := some "NACK" }) rfl).1
      { error := "boom", ack := some "NACK" } rfl

/-- In a sorted association list every key is bounded by the last key. -/
theorem bmLastKey_is_max {K α : Type} [LinearOrder K] :
    ∀ (l : List (K × α)), List.Chain' (fun a b => a.1 < b.1) l →
      ∀ e ∈ l, ∃ mk, bmLastKey l = some mk ∧ e.1 ≤ mk
  | [], _, e, he => absurd he (List.not_mem_nil e)
  | [x], _, e, he => by
      simp only [List.mem_singleton] at he
      exact ⟨x.1, rfl, le_of_eq (by rw [he])⟩
  | x :: y :: tl, hs, e, he => by
      have hx : x.1 < y.1 := (List.chain'_cons.mp hs).1
      have hs' : List.Chain' (fun a b => a.1 < b.1) (y :: tl) :=
        (List.chain'_cons.mp hs).2
      rcases List.mem_cons.mp he with rfl | he'
      · obtain ⟨mk, hmk, hy⟩ :=
          bmLastKey_is_max (y :: tl) hs' y (List.mem_cons_self y tl)
        exact ⟨mk, hmk, le_of_lt (lt_of_lt_of_le hx hy)⟩
      · obtain ⟨mk, hmk, hy⟩ := bmLastKey_is_max (y :: tl) hs' e he'
        exact ⟨mk, hmk, hy⟩

/-- Inserting a key greater than every present key appends at the end. -/
theorem bmInsert_eq_append {K α : Type} [LinearOrder K] (k : K) (v : α) :
    ∀ (l : List (K × α)), (∀ e ∈ l, e.1 < k) → bmInsert k v l = l ++ [(k, v)]
  | [], _ => rfl
  | x :: tl, h => by
      have hx : x.1 < k := h x (List.mem_cons_self x tl)
      have h1 : ¬k < x.1 := not_lt_of_gt hx
      have h2 : ¬k = x.1 := fun he => lt_irrefl x.1 (he ▸ hx)
      simp only [bmInsert, if_neg h1, if_neg h2, List.cons_append, List.cons.injEq,
        true_and]
      exact bmInsert_eq_append k v tl (fun e he => h e (List.mem_cons_of_mem x he))

/-- C6 (amended): `emit_packet` assigns the key one past the ledger's current
greatest key, so the new key is strictly greater than every key presently in
the ledger and the new entry is appended after all of them — keys grow
strictly while earlier entries remain, but (see the counterexample) a key
can be reassigned once the greatest entry has been removed. -/
theorem C6_emit_key_exceeds_current_entries {σ : Type} (s : Storage σ)
    (m : PacketMap) (p : IbcPacketType)
    (hm : s.pending = some m) (hs : bmSorted m) :
    (emit_packet p s).pending = some (m ++ [((bmLastKey m).getD 0 + 1, p)]) ∧
    ∀ e ∈ m, e.1 < (bmLastKey m).getD 0 + 1 := by
  have hmax : ∀ e ∈ m, e.1 < (bmLastKey m).getD 0 + 1 := by
    intro e he
    obtain ⟨mk, hmk, hle⟩ := bmLastKey_is_max m hs e he
    rw [hmk]
    exact Nat.lt_succ_of_le hle
  constructor
  · unfold emit_packet
    dsimp only
    rw [hm, Option.getD_some, bmInsert_eq_append _ _ m hmax]
  · exact hmax

/-- C6 witness: emitting into a one-entry ledger appends under key 2, above
the present key 1. -/
theorem C6_emit_witness :
    (emit_packet (.CloseChannel "q")
      ({ pending := some [(1, .CloseChannel "p")], app := 0 } : Storage Nat)).pending =
      some [(1, .CloseChannel "p"), (2, .CloseChannel "q")] ∧
    ∀ e ∈ [(1, IbcPacketType.CloseChannel "p")], e.1 < 2 := by
  exact C6_emit_key_exceeds_current_entries
    { pending := some [(1, .CloseChannel "p")], app := 0 }
    [(1, .CloseChannel "p")] (.CloseChannel "q") rfl (by simp [bmSorted])

/-- C1 (amended): once `relay_packet` has loaded the packet, resolved the
destination through the source channel's remote half and run the
destination's `incoming_packet`, the outcome is fully determined: a hard
error from the destination is propagated with the source ledger untouched;
on success the packet is removed from the source ledger (as it stands after
the destination call) and the destination's response is returned; and if the
ledger item is missing at removal time, `relay_packet` reports that error
instead of silently dropping the entry. -/
theorem C1_relay_packet_removal {σ : Type} (H : String → Handlers σ)
    (eco : EcoState σ) (chain_id : String) (packet_id : Nat)
    (app_src : ChainState σ) (packet : IbcPacketType)
    (info : IbcChannelWrapper) (app_dest : ChainState σ)
    (eco1 : EcoState σ) (res : AppResult MayResponse)
    (h1 : Ecosystem.get_app eco chain_id = .ok app_src)
    (h2 : IbcApp.get_pending_packet app_src packet_id = .ok packet)
    (h3 : IbcApp.get_channel_info app_src packet.get_local_channel_id = .ok info)
    (h4 : Ecosystem.get_app eco info.remote_half.chain_id = .ok app_dest)
    (hinc : IbcApp.incoming_packet (H info.remote_half.chain_id) eco
        info.remote_half.chain_id packet = (eco1, res)) :
    (∀ e, res = .err e →
       Ecosystem.relay_packet H eco chain_id packet_id = (eco1, .err e)) ∧
    (∀ resp, res = .ok resp →
       ∀ src1, Ecosystem.get_app eco1 chain_id = .ok src1 →
       (src1.storage.pending = none →
          Ecosystem.relay_packet H eco chain_id packet_id =
            (eco1, .err "pending_packets not found")) ∧
       (∀ m, src1.storage.pending = some m →
          Ecosystem.relay_packet H eco chain_id packet_id =
            (Ecosystem.set_app eco1 chain_id
               { src1 with storage := { src1.storage with pending := some (bmRemove m packet_id) } },
             .ok resp))) := by
  unfold Ecosystem.relay_packet
  rw [h1]
  dsimp only
  rw [h2]
  dsimp only
  rw [h3]
  dsimp only
  rw [h4]
  dsimp only
  rw [hinc]
  dsimp only
  constructor
  · intro e he
    subst he
    rfl
  · intro resp hr src1 hsrc
    subst hr
    dsimp only
    rw [hsrc]
    dsimp only
    constructor
    · intro hnone
      have hrp : IbcApp.remove_packet src1 packet_id = .err "pending_packets not found" := by
        unfold IbcApp.remove_packet
        rw [hnone]
      rw [hrp]
    · intro m hm
      have hrp : IbcApp.remove_packet src1 packet_id =
          .ok { src1 with storage := { src1.storage with pending := some (bmRemove m packet_id) } } := by
        unfold IbcApp.remove_packet
        rw [hm]
      rw [hrp]

/-- C1 witness: on the fixture, after the destination receive, the source
ledger entry 1 is removed and the destination's response is returned. -/
theorem C1_removal_witness :
    Ecosystem.relay_packet (fun _ => okHandlers) ecoAB "chainA" 1 =
      (Ecosystem.set_app ecoAB_afterReceive "chainA"
         { chainA with storage := { pending := some (bmRemove [(1, .OutgoingPacket pktAB)] 1), app := 0 } },
       .ok (.Ok { events := [], data := none })) := by
  exact ((C1_relay_packet_removal (fun _ => okHandlers) ecoAB "chainA" 1 chainA
      (.OutgoingPacket pktAB) wrapA chainB ecoAB_afterReceive
      (.ok (.Ok { events := [], data := none }))
      (by decide) (by decide) (by decide) (by decide) (by decide)).2
      (.Ok { events := [], data := none }) rfl chainA (by decide)).2
      [(1, .OutgoingPacket pktAB)] rfl

/-- Resolving the channel id succeeds exactly on a set id. -/
theorem channel_id_val_ok_iff (c : IbcChannelCreator) (k : Nat) :
    c.channel_id_val = .ok k ↔ c.channel_id = some k := by
  unfold IbcChannelCreator.channel_id_val
  cases c.channel_id <;> simp

/-- Inversion of a successful `IbcApp.open_channel`: the returned wrapper is
the freshly `Created` one, and the chain's registry gains it under the local
channel id (the storage having been touched only by the dispatched open
event). -/
theorem open_channel_ok_inv {σ : Type} (H : Handlers σ) (st : ChainState σ)
    (lc rc : IbcChannelCreator) (seq : Nat) (st' : ChainState σ)
    (w : IbcChannelWrapper)
    (h : IbcApp.open_channel H st lc rc seq = (st', .ok w)) :
    w = { local_half := lc, remote_half := rc, status := .Created, sequence := seq } ∧
    ∃ key s', lc.channel_id = some key ∧
      st' = { st with storage := s', channels := bmInsert key w st.channels } := by
  unfold IbcApp.open_channel at h
  repeat' (first | split at h | dsimp only at h)
  all_goals injection h with h1 h2
  all_goals cases h2
  all_goals rename_i k hk
  all_goals exact ⟨rfl, k, _, (channel_id_val_ok_iff _ _).mp hk, h1.symm⟩

/-- The only successful status transitions are `Created → Opening` and
`Opening → Connected`. -/
theorem to_next_status_ok_cases (s s' : IbcChannelStatus)
    (h : s.to_next_status = .ok s') :
    (s = .Created ∧ s' = .Opening) ∨ (s = .Opening ∧ s' = .Connected) := by
  cases s <;> simp [IbcChannelStatus.to_next_status] at h <;> simp [h]

/-- Inversion of a successful `IbcApp.channel_connect`: the addressed channel
exists, its status advances by `to_next_status`, and the updated wrapper is
stored back (the storage having been touched only by the dispatched connect
event). -/
theorem channel_connect_ok_inv {σ : Type} (H : Handlers σ) (st : ChainState σ)
    (cid : Nat) (st' : ChainState σ)
    (h : IbcApp.channel_connect H st cid = (st', .ok ())) :
    ∃ w stat' s', bmGet st.channels cid = some w ∧
      w.status.to_next_status = .ok stat' ∧
      st' = { st with storage := s', channels := bmInsert cid { w with status := stat' } st.channels } := by
  unfold IbcApp.channel_connect at h
  repeat' (first | split at h | dsimp only at h)
  all_goals injection h with h1 h2
  all_goals cases h2
  all_goals exact ⟨_, _, _, by assumption, by assumption, h1.symm⟩

/-- Inversion of a successful `Ecosystem.open_step`: the chain exists, its
`open_channel` succeeded, and the updated chain state is written back. -/
theorem open_step_ok_inv {σ : Type} (H : String → Handlers σ) (eco : EcoState σ)
    (cid : String) (lc rc : IbcChannelCreator) (seq : Nat)
    (eco' : EcoState σ) (w : IbcChannelWrapper)
    (h : Ecosystem.open_step H eco cid lc rc seq = (eco', .ok w)) :
    ∃ app st', Ecosystem.get_app eco cid = .ok app ∧
      IbcApp.open_channel (H cid) app lc rc seq = (st', .ok w) ∧
      eco' = Ecosystem.set_app eco cid st' := by
  unfold Ecosystem.open_step at h
  repeat' (first | split at h | dsimp only at h)
  all_goals injection h with h1 h2
  all_goals cases h2
  all_goals exact ⟨_, _, by assumption, by assumption, h1.symm⟩

/-- Inversion of a successful `Ecosystem.connect_step`: the chain exists, its
`channel_connect` succeeded, and the updated chain state is written back. -/
theorem connect_step_ok_inv {σ : Type} (H : String → Handlers σ)
    (eco : EcoState σ) (cid : String) (channel_id : Nat) (eco' : EcoState σ)
    (h : Ecosystem.connect_step H eco cid channel_id = (eco', .ok ())) :
    ∃ app st', Ecosystem.get_app eco cid = .ok app ∧
      IbcApp.channel_connect (H cid) app channel_id = (st', .ok ()) ∧
      eco' = Ecosystem.set_app eco cid st' := by
  unfold Ecosystem.connect_step at h
  repeat' (first | split at h | dsimp only at h)
  all_goals injection h with h1 h2
  all_goals cases h2
  all_goals exact ⟨_, _, by assumption, by assumption, h1.symm⟩

/-- Characterization of `Ecosystem.open_step` through its projections: when
the result component is a success, the state component is the source chain
updated with the freshly created wrapper under its local channel id. -/
theorem open_step_char {σ : Type} (H : String → Handlers σ) (eco : EcoState σ)
    (cid : String) (lc rc : IbcChannelCreator) (seq : Nat)
    (w : IbcChannelWrapper)
    (h : (Ecosystem.open_step H eco cid lc rc seq).2 = .ok w) :
    w = { local_half := lc, remote_half := rc, status := .Created, sequence := seq } ∧
    ∃ app key s', Ecosystem.get_app eco cid = .ok app ∧
      lc.channel_id = some key ∧
      (Ecosystem.open_step H eco cid lc rc seq).1 =
        Ecosystem.set_app eco cid { app with storage := s', channels := bmInsert key w app.channels } := by
  have hpair : Ecosystem.open_step H eco cid lc rc seq =
      ((Ecosystem.open_step H eco cid lc rc seq).1, .ok w) := by
    rw [← h]
  obtain ⟨app, st', hga, hoc, he⟩ :=
    open_step_ok_inv H eco cid lc rc seq _ w hpair
  obtain ⟨hw, key, s', hkey, hst⟩ := open_channel_ok_inv _ _ _ _ _ _ _ hoc
  subst hst
  exact ⟨hw, app, key, s', hga, hkey, he⟩

/-- Characterization of `Ecosystem.connect_step` through its projections:
when the result component is a success, the addressed channel advanced by
`to_next_status` in the chain's registry. -/
theorem connect_step_char {σ : Type} (H : String → Handlers σ)
    (eco : EcoState σ) (cid : String) (channel_id : Nat)
    (h : (Ecosystem.connect_step H eco cid channel_id).2 = .ok ()) :
    ∃ app w stat' s', Ecosystem.get_app eco cid = .ok app ∧
      bmGet app.channels channel_id = some w ∧
      w.status.to_next_status = .ok stat' ∧
      (Ecosystem.connect_step H eco cid channel_id).1 =
        Ecosystem.set_app eco cid { app with storage := s', channels := bmInsert channel_id { w with status := stat' } app.channels } := by
  have hpair : Ecosystem.connect_step H eco cid channel_id =
      ((Ecosystem.connect_step H eco cid channel_id).1, .ok ()) := by
    rw [← h]
  obtain ⟨app, st', hga, hcc, he⟩ :=
    connect_step_ok_inv H eco cid channel_id _ hpair
  obtain ⟨w, stat', s', hw, hnext, hst⟩ := channel_connect_ok_inv _ _ _ _ hcc
  subst hst
  exact ⟨app, w, stat', s', hga, hw, hnext, he⟩

/-- C5: a successful `open_ibc_channel` between two distinct registered
chains leaves both newly created channel halves in `Connected` status with
cross-referenced channel ids: each side's wrapper sits under that chain's
freshly assigned id, its local half carries its own id, and its remote half
carries the other side's id. -/
theorem C5_open_ibc_channel_connects_both_sides {σ : Type}
    (H : String → Handlers σ) (eco eco' : EcoState σ)
    (channel_1 channel_2 : IbcChannelCreator)
    (hne : channel_1.chain_id ≠ channel_2.chain_id)
    (hrun : Ecosystem.open_ibc_channel H eco channel_1 channel_2 = (eco', .ok ())) :
    ∃ app_1 app_2,
      Ecosystem.get_app eco channel_1.chain_id = .ok app_1 ∧
      Ecosystem.get_app eco channel_2.chain_id = .ok app_2 ∧
      ∃ w1 w2,
        chanAt eco' channel_1.chain_id (IbcApp.get_next_channel_id app_1) = some w1 ∧
        chanAt eco' channel_2.chain_id (IbcApp.get_next_channel_id app_2) = some w2 ∧
        w1.status = .Connected ∧
        w2.status = .Connected ∧
        w1.local_half.channel_id = some (IbcApp.get_next_channel_id app_1) ∧
        w1.remote_half.channel_id = some (IbcApp.get_next_channel_id app_2) ∧
        w2.local_half.channel_id = some (IbcApp.get_next_channel_id app_2) ∧
        w2.remote_half.channel_id = some (IbcApp.get_next_channel_id app_1) ∧
        w1.remote_half.channel_id = w2.local_half.channel_id ∧
        w2.remote_half.channel_id = w1.local_half.channel_id := by
  unfold Ecosystem.open_ibc_channel at hrun
  split at hrun
  · exact absurd hrun (by simp)
  rename_i app_1 heqA
  dsimp only [IbcChannelCreator.set_channel_id] at hrun
  split at hrun
  · exact absurd hrun (by simp)
  rename_i app_2 heqB
  split at hrun
  · exact absurd hrun (by simp)
  rename_i w1v hS1
  split at hrun
  · exact absurd hrun (by simp)
  rename_i w2v hS2
  split at hrun
  · exact absurd hrun (by simp)
  rename_i u3 hS3
  split at hrun
  · exact absurd hrun (by simp)
  rename_i u4 hS4
  split at hrun
  · exact absurd hrun (by simp)
  rename_i u5 hS5
  split at hrun
  · exact absurd hrun (by simp)
  rename_i u6 hS6
  injection hrun with h1 h2
  subst h1
  -- step 1: open on chain 1
  obtain ⟨hw1, a1o, key1, s1, hga1, hkey1, hE1⟩ := open_step_char _ _ _ _ _ _ _ hS1
  have hga1' : Ecosystem.get_app eco channel_1.chain_id = .ok a1o := hga1
  rw [heqA] at hga1'
  injection hga1' with he1
  subst he1
  dsimp only at hkey1
  injection hkey1 with hk1
  subst hk1
  subst hw1
  rw [hE1] at hS2 hS3 hS4 hS5 hS6 ⊢
  -- step 2: open on chain 2
  obtain ⟨hw2, a2o, key2, s2, hga2, hkey2, hE2⟩ := open_step_char _ _ _ _ _ _ _ hS2
  rw [Ecosystem.get_app_set_app_ne _ _ _ _ (Ne.symm hne)] at hga2
  have hga2' : Ecosystem.get_app eco channel_2.chain_id = .ok a2o := hga2
  rw [heqB] at hga2'
  injection hga2' with he2
  subst he2
  dsimp only at hkey2
  injection hkey2 with hk2
  subst hk2
  subst hw2
  rw [hE2] at hS3 hS4 hS5 hS6 ⊢
  -- step 3: first connect on chain 1 (Created → Opening)
  obtain ⟨a3, w3, stat3, s3, hga3, hw3, hnext3, hE3⟩ := connect_step_char _ _ _ _ hS3
  rw [Ecosystem.get_app_set_app_ne _ _ _ _ hne, Ecosystem.get_app_set_app_self] at hga3
  injection hga3 with he3
  subst he3
  dsimp only at hw3
  rw [bmGet_bmInsert_self] at hw3
  injection hw3 with hv3
  subst hv3
  simp only [IbcChannelStatus.to_next_status, AppResult.ok.injEq] at hnext3
  subst hnext3
  rw [hE3] at hS4 hS5 hS6 ⊢
  -- step 4: first connect on chain 2 (Created → Opening)
  obtain ⟨a4, w4, stat4, s4, hga4, hw4, hnext4, hE4⟩ := connect_step_char _ _ _ _ hS4
  rw [Ecosystem.get_app_set_app_ne _ _ _ _ (Ne.symm hne), Ecosystem.get_app_set_app_self] at hga4
  injection hga4 with he4
  subst he4
  dsimp only at hw4
  rw [bmGet_bmInsert_self] at hw4
  injection hw4 with hv4
  subst hv4
  simp only [IbcChannelStatus.to_next_status, AppResult.ok.injEq] at hnext4
  subst hnext4
  rw [hE4] at hS5 hS6 ⊢
  -- step 5: second connect on chain 1 (Opening → Connected)
  obtain ⟨a5, w5, stat5, s5, hga5, hw5, hnext5, hE5⟩ := connect_step_char _ _ _ _ hS5
  rw [Ecosystem.get_app_set_app_ne _ _ _ _ hne, Ecosystem.get_app_set_app_self] at hga5
  injection hga5 with he5
  subst he5
  dsimp only at hw5
  rw [bmGet_bmInsert_self] at hw5
  injection hw5 with hv5
  subst hv5
  simp only [IbcChannelStatus.to_next_status, AppResult.ok.injEq] at hnext5
  subst hnext5
  rw [hE5] at hS6 ⊢
  -- step 6: second connect on chain 2 (Opening → Connected)
  obtain ⟨a6, w6, stat6, s6, hga6, hw6, hnext6, hE6⟩ := connect_step_char _ _ _ _ hS6
  rw [Ecosystem.get_app_set_app_ne _ _ _ _ (Ne.symm hne), Ecosystem.get_app_set_app_self] at hga6
  injection hga6 with he6
  subst he6
  dsimp only at hw6
  rw [bmGet_bmInsert_self] at hw6
  injection hw6 with hv6
  subst hv6
  simp only [IbcChannelStatus.to_next_status, AppResult.ok.injEq] at hnext6
  subst hnext6
  rw [hE6]
  refine ⟨app_1, app_2, heqA, heqB,
    { local_half := { channel_1 with channel_id := some (IbcApp.get_next_channel_id app_1) }, remote_half := { channel_2 with channel_id := some (IbcApp.get_next_channel_id app_2) }, status := .Connected, sequence := eco.cells.length },
    { local_half := { channel_2 with channel_id := some (IbcApp.get_next_channel_id app_2) }, remote_half := { channel_1 with channel_id := some (IbcApp.get_next_channel_id app_1) }, status := .Connected, sequence := eco.cells.length },
    ?g1, ?g2, rfl, rfl, rfl, rfl, rfl, rfl, rfl, rfl⟩
  case g1 =>
    unfold chanAt
    rw [Ecosystem.get_app_set_app_ne _ _ _ _ hne, Ecosystem.get_app_set_app_self]
    dsimp only
    rw [bmGet_bmInsert_self]
  case g2 =>
    unfold chanAt
    rw [Ecosystem.get_app_set_app_self]
    dsimp only
    rw [bmGet_bmInsert_self]

/-- C5 witness: opening a channel between the two fresh fixture chains
succeeds and the theorem's conclusion holds for the resulting ecosystem. -/
theorem C5_witness :
    ∃ app_1 app_2,
      Ecosystem.get_app ecoFresh credA.chain_id = .ok app_1 ∧
      Ecosystem.get_app ecoFresh credB.chain_id = .ok app_2 ∧
      ∃ w1 w2,
        chanAt (Ecosystem.open_ibc_channel (fun _ => okHandlers) ecoFresh credA credB).1
          credA.chain_id (IbcApp.get_next_channel_id app_1) = some w1 ∧
        chanAt (Ecosystem.open_ibc_channel (fun _ => okHandlers) ecoFresh credA credB).1
          credB.chain_id (IbcApp.get_next_channel_id app_2) = some w2 ∧
        w1.status = .Connected ∧
        w2.status = .Connected ∧
        w1.local_half.channel_id = some (IbcApp.get_next_channel_id app_1) ∧
        w1.remote_half.channel_id = some (IbcApp.get_next_channel_id app_2) ∧
        w2.local_half.channel_id = some (IbcApp.get_next_channel_id app_2) ∧
        w2.remote_half.channel_id = some (IbcApp.get_next_channel_id app_1) ∧
        w1.remote_half.channel_id = w2.local_half.channel_id ∧
        w2.remote_half.channel_id = w1.local_half.channel_id :=
  C5_open_ibc_channel_connects_both_sides (fun _ => okHandlers) ecoFresh
    (Ecosystem.open_ibc_channel (fun _ => okHandlers) ecoFresh credA credB).1
    credA credB (by decide) (by decide)

/-- Stripping a prefix succeeds exactly on lists that extend it. -/
theorem dropPref_eq_some_iff : ∀ (p s r : List Char),
    dropPref p s = some r ↔ s = p ++ r
  | [], s, r => by simp [dropPref]
  | _ :: _, [], _ => by simp [dropPref]
  | c :: ps, d :: ds, r => by
      by_cases h : d = c
      · subst h
        simp [dropPref, dropPref_eq_some_iff ps ds r]
      · simp [dropPref, h]

/-- The digit fold never decreases the accumulator. -/
theorem foldDigits_ge : ∀ (l : List Char) (a : Nat), a ≤ foldDigits a l
  | [], a => le_refl a
  | c :: cs, a => by
      have h := foldDigits_ge cs (a * 10 + (c.toNat - '0'.toNat))
      simp only [foldDigits, List.foldl] at h ⊢
      omega

/-- Characterization of the checked digit-accumulation loop of
`u64::from_str`: from an in-range accumulator it succeeds exactly on digit
strings whose accumulated value stays below `2^64`. -/
theorem parseDigitsU64_eq_some_iff : ∀ (l : List Char) (acc n : Nat),
    acc < 18446744073709551616 →
    (parseDigitsU64 acc l = some n ↔
      ((∀ c ∈ l, isAsciiDigit c = true) ∧ n = foldDigits acc l ∧
       n < 18446744073709551616))
  | [], acc, n, hacc => by
      simp only [parseDigitsU64, foldDigits, List.foldl, Option.some.injEq,
        List.not_mem_nil, false_implies, implies_true, true_and]
      constructor
      · rintro rfl
        exact ⟨rfl, hacc⟩
      · rintro ⟨rfl, _⟩
        rfl
  | c :: cs, acc, n, hacc => by
      simp only [parseDigitsU64]
      by_cases hd : isAsciiDigit c
      · by_cases hlt : acc * 10 + (c.toNat - '0'.toNat) < 18446744073709551616
        · simp only [hd, if_true, hlt]
          rw [parseDigitsU64_eq_some_iff cs (acc * 10 + (c.toNat - '0'.toNat)) n hlt]
          simp only [foldDigits, List.foldl, List.mem_cons]
          constructor
          · rintro ⟨hds, hn, hb⟩
            exact ⟨fun x hx => hx.elim (fun he => he ▸ hd) (hds x), hn, hb⟩
          · rintro ⟨hds, hn, hb⟩
            exact ⟨fun x hx => hds x (Or.inr hx), hn, hb⟩
        · simp only [hd, if_true, hlt, if_false]
          constructor
          · intro hfalse
            exact absurd hfalse (by simp)
          · rintro ⟨hds, hn, hb⟩
            have hge := foldDigits_ge cs (acc * 10 + (c.toNat - '0'.toNat))
            simp only [foldDigits, List.foldl] at hn hge
            omega
      · simp only [hd, if_false]
        constructor
        · intro hfalse
          exact absurd hfalse (by simp)
        · rintro ⟨hds, _, _⟩
          exact absurd (hds c (List.mem_cons_self c cs)) (by simp [hd])

/-- Characterization of the `u64::from_str` model: success exactly on an
optional leading '+' followed by a nonempty digit string below `2^64`. -/
theorem parseU64_eq_some_iff (s : String) (n : Nat) :
    parseU64 s = some n ↔
      ∃ ds : List Char, (s.data = ds ∨ s.data = '+' :: ds) ∧ ds ≠ [] ∧
        (∀ c ∈ ds, isAsciiDigit c = true) ∧ n = foldDigits 0 ds ∧
        n < 18446744073709551616 := by
  unfold parseU64
  cases hsd : s.data with
  | nil =>
    constructor
    · intro h
      exact absurd h (by simp)
    · rintro ⟨ds, hd | hd, hne, _⟩
      · exact absurd hd.symm hne
      · exact absurd hd (by simp)
  | cons c cs =>
    by_cases hc : c = '+'
    · subst hc
      cases cs with
      | nil =>
        constructor
        · intro h
          exact absurd h (by simp)
        · rintro ⟨ds, hd | hd, hne, hdig, _⟩
          · subst hd
            exact absurd (hdig '+' (by simp)) (by decide)
          · injection hd with h1 h2
            exact absurd h2.symm hne
      | cons e es =>
        have hiff := parseDigitsU64_eq_some_iff (e :: es) 0 n (by omega)
        constructor
        · intro h
          replace h : parseDigitsU64 0 (e :: es) = some n := h
          obtain ⟨hdig, hn, hb⟩ := hiff.mp h
          exact ⟨e :: es, Or.inr rfl, by simp, hdig, hn, hb⟩
        · rintro ⟨ds, hd | hd, hne, hdig, hn, hb⟩
          · subst hd
            exact absurd (hdig '+' (by simp)) (by decide)
          · injection hd with h1 h2
            subst h2
            show parseDigitsU64 0 (e :: es) = some n
            exact hiff.mpr ⟨hdig, hn, hb⟩
    · dsimp only
      rw [if_neg hc]
      rw [parseDigitsU64_eq_some_iff (c :: cs) 0 n (by omega)]
      constructor
      · rintro ⟨hdig, hn, hb⟩
        exact ⟨c :: cs, Or.inl rfl, by simp, hdig, hn, hb⟩
      · rintro ⟨ds, hd | hd, hne, hdig, hn, hb⟩
        · subst hd
          exact ⟨hdig, hn, hb⟩
        · injection hd with h1 h2
          exact absurd h1 hc

/-- C9 (amended): parsing a string as a channel id succeeds with value `n`
exactly when the string is `"channel-"` followed by an optional `'+'` sign
and a nonempty run of ASCII decimal digits reading `n`, with `n < 2^64`
(Rust's `u64::from_str` grammar); anything else — in particular any other
prefix — is rejected. -/
theorem C9_as_channel_number_characterization (s : String) (n : Nat) :
    as_channel_number s = .ok n ↔
      ∃ ds : List Char,
        (s.data = "channel-".data ++ ds ∨ s.data = "channel-".data ++ '+' :: ds) ∧
        ds ≠ [] ∧ (∀ c ∈ ds, isAsciiDigit c = true) ∧
        n = foldDigits 0 ds ∧ n < 18446744073709551616 := by
  unfold as_channel_number
  cases hdp : dropPref "channel-".data s.data with
  | none =>
    constructor
    · intro h
      exact absurd h (by simp)
    · rintro ⟨ds, hd | hd, _, _, _, _⟩
      · have hsome := (dropPref_eq_some_iff "channel-".data s.data ds).mpr hd
        rw [hdp] at hsome
        exact absurd hsome (by simp)
      · have hsome := (dropPref_eq_some_iff "channel-".data s.data ('+' :: ds)).mpr hd
        rw [hdp] at hsome
        exact absurd hsome (by simp)
  | some rest =>
    have hsr : s.data = "channel-".data ++ rest :=
      (dropPref_eq_some_iff _ _ _).mp hdp
    have hbr : parseU64 (String.mk rest) = some n ↔
        (∃ ds : List Char,
          (s.data = "channel-".data ++ ds ∨ s.data = "channel-".data ++ '+' :: ds) ∧
          ds ≠ [] ∧ (∀ c ∈ ds, isAsciiDigit c = true) ∧
          n = foldDigits 0 ds ∧ n < 18446744073709551616) := by
      rw [parseU64_eq_some_iff]
      constructor
      · rintro ⟨ds, hd | hd, hne, hdig, hn, hb⟩
        · refine ⟨ds, Or.inl ?_, hne, hdig, hn, hb⟩
          rw [hsr]
          exact congrArg _ hd
        · refine ⟨ds, Or.inr ?_, hne, hdig, hn, hb⟩
          rw [hsr]
          exact congrArg _ hd
      · rintro ⟨ds, hd | hd, hne, hdig, hn, hb⟩
        · have hrd : rest = ds := by
            have := hsr.symm.trans hd
            exact List.append_cancel_left this
          refine ⟨ds, Or.inl hrd, hne, hdig, hn, hb⟩
        · have hrd : rest = '+' :: ds := by
            have := hsr.symm.trans hd
            exact List.append_cancel_left this
          refine ⟨ds, Or.inr hrd, hne, hdig, hn, hb⟩
    rw [← hbr]
    cases hp : parseU64 (String.mk rest) <;> simp [hp]
